import Mathlib

/-
Shallow embedding of the SolarDB query, resampling, assembly and evaluation
layer (solardb/db/data.py, solardb/db/assemble.py, solardb/db/evaluate.py).

Modelling conventions:
 * timestamps are integers counting minutes since 2021-01-01T00:00;
   calendar dates are integer day indices with day 0 = 2021-01-01;
 * physical quantities are rationals, so time-weighted linear interpolation
   is exact;
 * a pandas DataFrame is a list of typed rows; the index columns of a frame
   are represented by Option fields that are populated exactly when the
   source would select the corresponding column;
 * SQL queries are pure functions over a list of records: WHERE becomes
   List.filter, ORDER BY becomes a stable insertion sort on the key;
 * Python exceptions become Except.error;
 * of the physical weather columns (precip_int, temp, apparent_temp, ...)
   the embedding carries temp as the representative: the pipeline treats
   every float column identically, one column suffices for the claims;
   the power frame carries power_ac and power_dc and the exogenous frame
   carries sun_altitude for the same reason.
-/

/-- Primary data frequency (power, exogenous): 5 minutes
(config/static.py P_FREQUENCY_D). -/
def P_FREQUENCY : Int := 5

/-- Secondary data frequency (weather): 1 hour
(config/static.py S_FREQUENCY_D). -/
def S_FREQUENCY : Int := 60

/-- Modelled from the spec: date_earliest_date_time lives in
solardb/common/util.py, which is not among the provided sources.  Spec
section 4.2: a bare calendar date is normalized to its start-of-day instant.
Maps a day index to the first minute of that day. -/
def date_earliest_date_time (d : Int) : Int := 1440 * d

/-- Modelled from the spec: date_latest_date_time lives in
solardb/common/util.py, which is not among the provided sources.  Spec
section 4.2: a bare calendar date is normalized to its end-of-day instant.
Maps a day index to the last minute of that day (23:59 at the one-minute
resolution of this model). -/
def date_latest_date_time (d : Int) : Int := 1440 * d + 1439

/-- Modelled from the spec: end-of-day instant of the calendar day that
contains a given instant, used by the right-edge extension of the
resampling engine (spec section 4.3 step 1, data.py line 544 applies
date_latest_date_time to the maximal observed timestamp). -/
def date_latest_of_instant (t : Int) : Int := 1440 * (t / 1440) + 1439

/-- Modelled from the spec: freq_floor lives in solardb/common/util.py,
which is not among the provided sources.  Spec section 4.3: bounds are
rounded outward, floor for start, to a frequency boundary.  Integer
division on Int is euclidean, hence a true floor for positive freq. -/
def freq_floor (t freq : Int) : Int := freq * (t / freq)

/-- Modelled from the spec: freq_ceil lives in solardb/common/util.py,
which is not among the provided sources.  Spec section 4.3: bounds are
rounded outward, ceil for end, to a frequency boundary. -/
def freq_ceil (t freq : Int) : Int := freq * ((t + freq - 1) / freq)

/-- A python argument that may be a datetime.date or a datetime.datetime
(the dt_start and dt_end parameters of the fetch operations). -/
inductive DTArg where
  | date (d : Int)
  | datetime (t : Int)
deriving Repr, DecidableEq

/-- Bound normalization used by every fetch operation in data.py: a
datetime is kept, a bare date is mapped through date_earliest_date_time.
data.py applies this expression both to dt_start (lines 432-433, 510-511,
638-639) and to dt_end (lines 437-438, 517-518, 643-644). -/
def dtArgEarliest : DTArg → Int
  | .date d => date_earliest_date_time d
  | .datetime t => t

/-- data.py PowerPlantID: a power plant or one of its inverters;
inv_id = none denotes the whole power plant. -/
structure PowerPlantID where
  pp_id : Int
  inv_id : Option Int
deriving Repr, DecidableEq

/-- data.py PowerPlantID.is_whole_power_plant. -/
def PowerPlantID.is_whole_power_plant (p : PowerPlantID) : Bool :=
  p.inv_id.isNone

/-- data.py PowerPlantID.__lt__ (lines 55-65), translated clause by clause:
pp_id compares first; on equal pp_id the result is true when the left
inv_id is none, and otherwise requires the right inv_id to be present and
larger. -/
def PowerPlantID.lt (a b : PowerPlantID) : Bool :=
  decide (a.pp_id < b.pp_id) ||
    (decide (a.pp_id = b.pp_id) &&
      (match a.inv_id with
       | none => true
       | some i =>
         match b.inv_id with
         | none => false
         | some j => decide (i < j)))

/-- data.py PowerPlantID.__eq__ (lines 67-69). -/
def PowerPlantID.peq (a b : PowerPlantID) : Bool :=
  a.pp_id == b.pp_id && a.inv_id == b.inv_id

/-- data.py PowerPlantIDT: the union type accepted wherever a power plant
identifier is expected (int, sequence, or an already resolved
PowerPlantID). -/
inductive PPIdT where
  | int (i : Int)
  | seq (l : List Int)
  | pp (p : PowerPlantID)
deriving Repr, DecidableEq

/-- data.py get_pp_id (lines 86-99): an already resolved identifier is
returned unchanged; a sequence takes its first element as pp_id and, when
shorter than two elements, the sentinel -1 as inv_id; a bare integer
resolves with inv_id = -1.  Indexing an empty sequence raises in python,
modelled as an error. -/
def get_pp_id : PPIdT → Except String PowerPlantID
  | .pp p => .ok p
  | .seq [] => .error "list index out of range"
  | .seq (x :: rest) =>
    .ok { pp_id := x, inv_id := some (match rest with | [] => -1 | y :: _ => y) }
  | .int i => .ok { pp_id := i, inv_id := some (-1) }

/-- A stored weather record (tables.py SolarWeatherTable); key columns
pp_id, dt, age; temp stands for the physical float columns. -/
structure WeatherRec where
  pp_id : Int
  dt : Int
  age : Int
  src_dt : Int
  summary : String
  temp : Rat
  ipolated : Bool
  epolated : Bool
deriving Repr, DecidableEq

/-- A row of the weather frame returned by get_pp_weather.  Option fields
model columns that may be absent (pp_id, age as index columns) or missing
values produced by reindexing (the remaining columns); src_dt becomes a
rational once the smoothing fix interpolates it numerically. -/
structure WRow where
  pp_id : Option Int
  dt : Int
  age : Option Int
  src_dt : Option Rat
  summary : Option String
  temp : Option Rat
  ipolated : Option Bool
  epolated : Option Bool
deriving Repr, DecidableEq

/-- The ORDER BY key of get_pp_weather: dt ascending, then age ascending
(data.py lines 504-507). -/
def wkeyLe (a b : WeatherRec) : Prop :=
  a.dt < b.dt ∨ (a.dt = b.dt ∧ a.age ≤ b.age)

instance : DecidableRel wkeyLe := fun a b => by
  unfold wkeyLe; infer_instance

instance : IsTotal WeatherRec wkeyLe := by
  constructor
  intro a b
  rcases lt_trichotomy a.dt b.dt with h | h | h
  · exact Or.inl (Or.inl h)
  · rcases le_total a.age b.age with h2 | h2
    · exact Or.inl (Or.inr ⟨h, h2⟩)
    · exact Or.inr (Or.inr ⟨h.symm, h2⟩)
  · exact Or.inr (Or.inl h)

instance : IsTrans WeatherRec wkeyLe := by
  constructor
  intro a b c hab hbc
  rcases hab with h1 | ⟨h1, h1a⟩ <;> rcases hbc with h2 | ⟨h2, h2a⟩
  · exact Or.inl (h1.trans h2)
  · exact Or.inl (h2 ▸ h1)
  · exact Or.inl (h1 ▸ h2)
  · exact Or.inr ⟨h1.trans h2, h1a.trans h2a⟩

/-- The WHERE clause of get_pp_weather (data.py lines 500-527): plant
filter, normalized inclusive bounds, fixed age, and maximal source dt. -/
def weatherWhere (pp : Option PowerPlantID) (ds de : Option Int)
    (src_age : Option Int) (src_dt_max : Option Int) (r : WeatherRec) : Bool :=
  (match pp with | none => true | some p => r.pp_id == p.pp_id) &&
  (match ds with | none => true | some t => decide (t ≤ r.dt)) &&
  (match de with | none => true | some t => decide (r.dt ≤ t)) &&
  (match src_age with | none => true | some a => r.age == a) &&
  (match src_dt_max with | none => true | some c => decide (r.src_dt ≤ c))

/-- Materialize a fetched weather record as a frame row; hasPP and hasAge
say whether the pp_id and age columns were selected (data.py lines
488-492). -/
def toWRow (hasPP hasAge : Bool) (r : WeatherRec) : WRow :=
  { pp_id := if hasPP then some r.pp_id else none
    dt := r.dt
    age := if hasAge then some r.age else none
    src_dt := some (r.src_dt : Rat)
    summary := some r.summary
    temp := some r.temp
    ipolated := some r.ipolated
    epolated := some r.epolated }

/-- An all-missing row at a grid timestamp, produced by reindexing. -/
def blankWRow (t : Int) : WRow :=
  { pp_id := none, dt := t, age := none, src_dt := none, summary := none,
    temp := none, ipolated := none, epolated := none }

/-- pandas date_range(start, stop, freq, closed left) on the minute model:
the points start + step * k, k = 0, 1, ..., that lie strictly below stop
(on integers, at-most-stop minus the stop point itself is exactly
strictly-below-stop). -/
def dateRangeLeft (start stop step : Int) : List Int :=
  (List.range ((stop - start + step - 1) / step).toNat).map
    (fun (k : Nat) => start + step * (k : Int))

/-- Recursion core of groupFirstBy; the fuel argument makes the recursion
structural (the filtered tail is not a structural subterm), it is always
called with fuel at least the list length. -/
def groupFirstByAux (key : α → Int) : Nat → List α → List α
  | _, [] => []
  | 0, _ :: _ => []
  | fuel + 1, r :: rs =>
    r :: groupFirstByAux key fuel (rs.filter (fun s => key s != key r))

/-- pandas groupby(key).first() over a frame whose rows carry no missing
values: keep, for every key, the first row in frame order.  The frames this
is applied to are already sorted by the key, so group order and first-row
semantics coincide with pandas. -/
def groupFirstBy (key : α → Int) (l : List α) : List α :=
  groupFirstByAux key l.length l

/-- pandas Series.ffill: carry the last known value forward; acc is the
value carried into the list. -/
def ffillList (acc : Option α) : List (Option α) → List (Option α)
  | [] => []
  | v :: vs =>
    match v with
    | some x => some x :: ffillList (some x) vs
    | none => acc :: ffillList acc vs

/-- The valid (time, value) pairs of an optional-valued column. -/
def anchorsOf (pts : List (Int × Option Rat)) : List (Int × Rat) :=
  pts.filterMap (fun p => match p.2 with | some v => some (p.1, v) | none => none)

/-- Linear interpolation through consecutive anchors, clamping to the last
value beyond the final anchor; anchors are listed in ascending time.  On a
degenerate zero-length segment the rational division by zero returns zero,
so the left value is kept; the pipeline only reaches this function with
strictly increasing anchor times. -/
def interpFrom (t0 : Int) (v0 : Rat) : List (Int × Rat) → Int → Rat
  | [], _ => v0
  | (t1, v1) :: rest, t =>
    if t ≤ t1 then v0 + (v1 - v0) * ((t - t0 : Int) : Rat) / ((t1 - t0 : Int) : Rat)
    else interpFrom t1 v1 rest t

/-- pandas Series.interpolate(method time) with the default forward limit
direction: positions before the first anchor stay missing, positions
between anchors are linear in elapsed time, positions after the last
anchor carry its value forward. -/
def interpAt (anchors : List (Int × Rat)) (t : Int) : Option Rat :=
  match anchors with
  | [] => none
  | (t0, v0) :: rest => if t < t0 then none else some (interpFrom t0 v0 rest t)

/-- numpy interp as used by the pandas interpolation core: evaluation
against the valid anchors sorted by time, clamping on both edges.  With
duplicate anchor times the sort order and the bracketing choice influence
the result; the development only evaluates this with pairwise distinct
anchor times. -/
def npInterp (anchors : List (Int × Rat)) (t : Int) : Rat :=
  match anchors with
  | [] => 0
  | (t0, v0) :: rest => if t ≤ t0 then v0 else interpFrom t0 v0 rest t

/-- Minimum of a projected Int column. -/
def colMin? (f : α → Int) : List α → Option Int
  | [] => none
  | x :: xs =>
    some (match colMin? f xs with | none => f x | some m => min (f x) m)

/-- Maximum of a projected Int column. -/
def colMax? (f : α → Int) : List α → Option Int
  | [] => none
  | x :: xs =>
    some (match colMax? f xs with | none => f x | some m => max (f x) m)

/-- pandas reindex of a frame indexed by dt onto a grid point: the unique
row at that timestamp if present (uniqueness is checked by the caller, as
pandas raises on duplicate axes), otherwise an all-missing row.  The
resample drops the pp_id column before reindexing (data.py lines 557-558),
hence pp_id is cleared. -/
def reindexRow (g : List WRow) (t : Int) : WRow :=
  match g.find? (fun r => r.dt == t) with
  | some r => { r with pp_id := none }
  | none => blankWRow t

/-- The reindexed (not yet interpolated) grid frame of one group. -/
def resampleBase (g : List WRow) (gridPts : List Int) : List WRow :=
  gridPts.map (reindexRow g)

/-- data.py resample_df, interpolation step: fill the float columns of the
reindexed frame by time-weighted interpolation over the anchors that
survived reindexing.  The datetime column src_dt, the text column summary
and the two flag columns are left untouched here and fixed afterwards,
exactly as DataFrame.interpolate only touches float columns. -/
def resampleRows (g : List WRow) (gridPts : List Int) : List WRow :=
  (resampleBase g gridPts).map (fun r =>
    { r with temp := interpAt (anchorsOf ((resampleBase g gridPts).map (fun s => (s.dt, s.temp)))) r.dt })

/-- data.py resample_df (lines 556-567): set_index(dt).reindex(grid) with
pandas raising on a duplicate index, then interpolate. -/
def resample_df (g : List WRow) (gridPts : List Int) : Except String (List WRow) :=
  if (g.map (fun r => r.dt)).Nodup then
    .ok (resampleRows g gridPts)
  else .error "cannot reindex from a duplicate axis"

/-- data.py get_pp_weather lines 541-549: with no explicit dt_end, append a
copy of the last fetched row, moved to the end of the last observed day
rounded down to the primary frequency, with src_dt shifted by the gap of
the previously last row and the flags set to extrapolated.  On an empty
frame the pandas row access raises, modelled as an error. -/
def extendLast (rows : List WRow) : Except String (List WRow) :=
  match rows.getLast? with
  | none => .error "cannot extend an empty frame"
  | some last =>
    match colMax? (fun r => r.dt) rows with
    | none => .error "cannot extend an empty frame"
    | some mx =>
      let newDt := freq_floor (date_latest_of_instant mx) P_FREQUENCY
      let newSrc := match last.src_dt with
        | some v => some ((newDt : Rat) + ((last.dt : Rat) - v))
        | none => none
      .ok (rows ++
        [{ last with dt := newDt, src_dt := newSrc,
                     ipolated := some false, epolated := some true }])

/-- data.py lines 569-572: group the frame by pp_id (pandas visits groups
in ascending key order), resample every group, and concatenate with the
group key reattached as a column. -/
def groupedResample (keys : List Int) (dfRows : List WRow) (gridPts : List Int) :
    Except String (List WRow) :=
  match keys with
  | [] => .ok []
  | p :: ks =>
    match resample_df (dfRows.filter (fun r => r.pp_id == some p)) gridPts with
    | .error e => .error e
    | .ok g =>
      match groupedResample ks dfRows gridPts with
      | .error e => .error e
      | .ok rest => .ok (g.map (fun r => { r with pp_id := some p }) ++ rest)

/-- The distinct pp_id values of the frame in ascending order (the group
keys of pandas groupby with its default key sorting). -/
def sortedKeys (rows : List WRow) : List Int :=
  List.insertionSort (fun a b => a ≤ b) ((rows.filterMap (fun r => r.pp_id)).dedup)

/-- data.py line 577: negative src_dt values are sentinels for unknown and
are cleared before the numeric interpolation. -/
def sentinelClean (v : Option Rat) : Option Rat :=
  match v with
  | some x => if x < 0 then none else some x
  | none => none

/-- data.py lines 575-578: the src_dt column of the whole concatenated
frame is converted to numbers, sentinel-cleaned, and interpolated over the
dt index: pandas sorts the valid anchors by index value and evaluates the
missing positions with numpy interp, then restores the missing positions
that precede the first valid value in frame order (forward limit
direction).  Note that this step is global, not per group. -/
def fixSrcDt (rows : List WRow) : List WRow :=
  let cleaned := rows.map (fun r => sentinelClean r.src_dt)
  let srcAnchors := List.insertionSort (fun a b => a.1 ≤ b.1)
    (anchorsOf (List.zipWith (fun r v => (r.dt, v)) rows cleaned))
  let firstValid := cleaned.findIdx (fun v => v.isSome)
  List.zipWith
    (fun r (i : Nat) =>
      { r with src_dt :=
          match sentinelClean r.src_dt with
          | some x => some x
          | none => if i < firstValid then none else some (npInterp srcAnchors r.dt) })
    rows (List.range rows.length)

/-- data.py line 580: forward-fill of the summary column over the whole
concatenated frame. -/
def fixSummary (rows : List WRow) : List WRow :=
  List.zipWith (fun r v => { r with summary := v })
    rows (ffillList none (rows.map (fun r => r.summary)))

/-- data.py line 582: forward-fill of the ipolated flag column over the
whole concatenated frame. -/
def fixIpolated (rows : List WRow) : List WRow :=
  List.zipWith (fun r v => { r with ipolated := v })
    rows (ffillList none (rows.map (fun r => r.ipolated)))

/-- data.py line 584: forward-fill of the epolated flag column over the
whole concatenated frame. -/
def fixEpolated (rows : List WRow) : List WRow :=
  List.zipWith (fun r v => { r with epolated := v })
    rows (ffillList none (rows.map (fun r => r.epolated)))

/-- data.py lines 574-584: the four global column fixes applied to the
concatenated resampled frame, in source order: numeric reinterpretation
and interpolation of src_dt, then forward fills of summary, ipolated and
epolated. -/
def applyFixes (rows : List WRow) : List WRow :=
  fixEpolated (fixIpolated (fixSummary (fixSrcDt rows)))

/-- The smoothing tail of get_pp_weather (data.py lines 539-588), applied
to the frame rows after fetching, ordering and deduplication: right-edge
extension when dt_end is open, grid construction over the effective
bounds, per-plant grouped resampling when the pp_id column is present,
the global column fixes, and the right-edge trim when dt_end was given. -/
def smoothTail (rows1 : List WRow) (ds de : Option Int) (hasPP : Bool) :
    Except String (List WRow) :=
  match (if de.isNone then extendLast rows1 else .ok rows1) with
  | .error e => .error e
  | .ok rows2 =>
    match (match ds with | some s => some s | none => colMin? (fun (r : WRow) => r.dt) rows2) with
    | none => .error "cannot build a date range from an empty frame"
    | some resStart =>
      match (match de with | some e => some e | none => colMax? (fun (r : WRow) => r.dt) rows2) with
      | none => .error "cannot build a date range from an empty frame"
      | some resEnd =>
        let gridPts := dateRangeLeft resStart (resEnd + P_FREQUENCY) P_FREQUENCY
        match (if hasPP then groupedResample (sortedKeys rows2) rows2 gridPts
               else resample_df rows2 gridPts) with
        | .error e => .error e
        | .ok rows3 =>
          let rows4 := applyFixes rows3
          .ok (if de.isSome then rows4.dropLast else rows4)

/-- data.py SolarDBData.get_pp_weather (lines 450-592).  The callers of
the embedding pass an already resolved identity (the source accepts the
union type and resolves it on line 501 before using only pp_id).  The
columns parameter is modelled at its default, every non-key column. -/
def get_pp_weather (wdb : List WeatherRec) (pp : Option PowerPlantID)
    (dt_start dt_end : Option DTArg) (src_age : Option Int)
    (src_dt_max : Option Int) (interpolate_smooth : Bool) (all_indices : Bool) :
    Except String (List WRow) :=
  if interpolate_smooth && src_age.isNone && src_dt_max.isNone then
    .error "Smooth interpolation is only supported for age-limited queries"
  else
    let ds := dt_start.map (fun a =>
      if interpolate_smooth then freq_floor (dtArgEarliest a) S_FREQUENCY
      else dtArgEarliest a)
    let de := dt_end.map (fun a =>
      if interpolate_smooth then freq_ceil (dtArgEarliest a) S_FREQUENCY
      else dtArgEarliest a)
    let recs := List.insertionSort wkeyLe
      (wdb.filter (weatherWhere pp ds de src_age src_dt_max))
    let hasPP := pp.isNone || all_indices
    let hasAge := src_age.isNone && src_dt_max.isNone
    let rows0 := recs.map (toWRow hasPP hasAge)
    let rows1 := if src_dt_max.isSome then groupFirstBy (fun r => r.dt) rows0 else rows0
    if interpolate_smooth then smoothTail rows1 ds de hasPP
    else .ok rows1

/-- A stored power record (tables.py SolarPowerTable); key columns pp_id,
inv_id, dt; the four energy aggregate columns behave exactly like
power_ac and power_dc under the pipeline and are represented by them. -/
structure PowerRec where
  pp_id : Int
  inv_id : Int
  dt : Int
  power_ac : Rat
  power_dc : Rat
  ipolated : Bool
  epolated : Bool
deriving Repr, DecidableEq

/-- A row of the power frame returned by get_pp_power; the Option index
fields model the selected index columns, the Option value fields model
missing values introduced by reindexing in the assembler. -/
structure PRow where
  pp_id : Option Int
  inv_id : Option Int
  dt : Int
  power_ac : Option Rat
  power_dc : Option Rat
  ipolated : Option Bool
  epolated : Option Bool
deriving Repr, DecidableEq

/-- The ORDER BY key of get_pp_power and get_pp_exogenous: dt ascending. -/
def pkeyLe (a b : PowerRec) : Prop := a.dt ≤ b.dt

instance : DecidableRel pkeyLe := fun a b => by
  unfold pkeyLe; infer_instance

instance : IsTotal PowerRec pkeyLe := ⟨fun a b => le_total a.dt b.dt⟩

instance : IsTrans PowerRec pkeyLe := ⟨fun _ _ _ h1 h2 => le_trans h1 h2⟩

/-- The WHERE clause of get_pp_power (data.py lines 423-439): plant
filter, inverter filter unless the identity is the whole plant, and the
normalized inclusive bounds. -/
def powerWhere (pp : Option PowerPlantID) (ds de : Option Int) (r : PowerRec) : Bool :=
  (match pp with
   | none => true
   | some p => r.pp_id == p.pp_id &&
       (match p.inv_id with | none => true | some i => r.inv_id == i)) &&
  (match ds with | none => true | some t => decide (t ≤ r.dt)) &&
  (match de with | none => true | some t => decide (r.dt ≤ t))

/-- data.py SolarDBData.get_pp_power (lines 383-448), with the columns
parameter at its default.  Both bare-date bounds go through
date_earliest_date_time, exactly as lines 431-439 do. -/
def get_pp_power (pdb : List PowerRec) (pp : Option PowerPlantID)
    (dt_start dt_end : Option DTArg) (all_indices : Bool) : List PRow :=
  let ds := dt_start.map dtArgEarliest
  let de := dt_end.map dtArgEarliest
  let hasPP := pp.isNone || all_indices
  let hasInv := hasPP || (match pp with
    | some p => p.is_whole_power_plant
    | none => false)
  (List.insertionSort pkeyLe (pdb.filter (powerWhere pp ds de))).map (fun r =>
    { pp_id := if hasPP then some r.pp_id else none
      inv_id := if hasInv then some r.inv_id else none
      dt := r.dt
      power_ac := some r.power_ac
      power_dc := some r.power_dc
      ipolated := some r.ipolated
      epolated := some r.epolated })

/-- A stored exogenous record (tables.py SolarExogenousTable); key columns
pp_id, dt; sun_altitude stands for the value columns. -/
structure ExoRec where
  pp_id : Int
  dt : Int
  sun_altitude : Rat
deriving Repr, DecidableEq

/-- A row of the exogenous frame returned by get_pp_exogenous. -/
structure ERow where
  pp_id : Option Int
  dt : Int
  sun_altitude : Rat
deriving Repr, DecidableEq

/-- The ORDER BY key of get_pp_exogenous: dt ascending. -/
def ekeyLe (a b : ExoRec) : Prop := a.dt ≤ b.dt

instance : DecidableRel ekeyLe := fun a b => by
  unfold ekeyLe; infer_instance

instance : IsTotal ExoRec ekeyLe := ⟨fun a b => le_total a.dt b.dt⟩

instance : IsTrans ExoRec ekeyLe := ⟨fun _ _ _ h1 h2 => le_trans h1 h2⟩

/-- The WHERE clause of get_pp_exogenous (data.py lines 631-645). -/
def exoWhere (pp : Option PowerPlantID) (ds de : Option Int) (r : ExoRec) : Bool :=
  (match pp with | none => true | some p => r.pp_id == p.pp_id) &&
  (match ds with | none => true | some t => decide (t ≤ r.dt)) &&
  (match de with | none => true | some t => decide (r.dt ≤ t))

/-- data.py SolarDBData.get_pp_exogenous (lines 594-654), with the columns
parameter at its default. -/
def get_pp_exogenous (edb : List ExoRec) (pp : Option PowerPlantID)
    (dt_start dt_end : Option DTArg) (all_indices : Bool) : List ERow :=
  let ds := dt_start.map dtArgEarliest
  let de := dt_end.map dtArgEarliest
  let hasPP := pp.isNone || all_indices
  (List.insertionSort ekeyLe (edb.filter (exoWhere pp ds de))).map (fun r =>
    { pp_id := if hasPP then some r.pp_id else none
      dt := r.dt
      sun_altitude := r.sun_altitude })

/-- assemble.py SolarDBAssembler._convert_date_time (lines 32-35). -/
def convert_date_time (d : DTArg) : Int := dtArgEarliest d

/-- assemble.py SolarDBAssembler._prepare_frame_index (lines 37-47): the
half-open primary-frequency grid. -/
def prepare_frame_index (freq ds de : Int) : List Int :=
  dateRangeLeft ds de freq

/-- A fully populated row of the frames produced by the assembler. -/
structure HRow where
  pp_id : Int
  inv_id : Int
  dt : Int
  power_ac : Rat
  power_dc : Rat
  ipolated : Bool
  epolated : Bool
deriving Repr, DecidableEq

/-- One output row of the non-fallback prepare_history branch: the grid
timestamp is looked up among the fetched rows; a hit keeps the stored
values with the pandas fillna defaults on missing entries, a miss is the
all-gap row (numeric columns zero, ipolated false, epolated true); both
carry the identity columns attached by the final assign. -/
def historyFillRow (taken : List PRow) (p : PowerPlantID) (t : Int) : HRow :=
  match taken.find? (fun r => r.dt == t) with
  | some r =>
    { pp_id := p.pp_id, inv_id := p.inv_id.getD (-1), dt := t,
      power_ac := r.power_ac.getD 0, power_dc := r.power_dc.getD 0,
      ipolated := r.ipolated.getD false, epolated := r.epolated.getD true }
  | none =>
    { pp_id := p.pp_id, inv_id := p.inv_id.getD (-1), dt := t,
      power_ac := 0, power_dc := 0, ipolated := false, epolated := true }

/-- assemble.py SolarDBAssembler.prepare_history (lines 49-110).  The
fallback branch relabels the first history_cnt fetched rows onto the
synthetic grid positionally (pandas set_index raises unless the lengths
agree); the non-fallback branch reindexes the fetched rows onto the grid
(pandas raises on duplicate axes) and fills the gaps: numeric columns
with zero, ipolated with false, epolated with true; both branches attach
the identity columns exactly as the source does. -/
def prepare_history (pdb : List PowerRec) (pp : PPIdT) (dt_start : DTArg)
    (history_cnt : Nat) (history_fallback : Bool) : Except String (List HRow) :=
  match get_pp_id pp with
  | .error e => .error e
  | .ok p =>
    let s := convert_date_time dt_start
    let altStart := s - P_FREQUENCY * (history_cnt : Int)
    let altEnd := s
    let ealtEnd := s + P_FREQUENCY * (history_cnt : Int)
    let frameIndex := prepare_frame_index P_FREQUENCY altStart altEnd
    if history_fallback then
      let taken := (get_pp_power pdb (some p) (some (.datetime altStart))
        (some (.datetime ealtEnd)) true).take history_cnt
      if taken.length = history_cnt then
        .ok (List.zipWith
          (fun t (r : PRow) =>
            { pp_id := r.pp_id.getD 0, inv_id := r.inv_id.getD 0, dt := t,
              power_ac := r.power_ac.getD 0, power_dc := r.power_dc.getD 0,
              ipolated := r.ipolated.getD false, epolated := r.epolated.getD false })
          frameIndex taken)
      else .error "Length mismatch: expected axis has different number of elements"
    else
      let taken := (get_pp_power pdb (some p) (some (.datetime altStart))
        (some (.datetime altEnd)) true).take history_cnt
      if (taken.map (fun r => r.dt)).Nodup then
        .ok (frameIndex.map (historyFillRow taken p))
      else .error "cannot reindex from a duplicate axis"

/-- assemble.py weather_scheme values (lines 137-159). -/
inductive WeatherScheme where
  | measured
  | forecast
  | realistic
deriving Repr, DecidableEq

/-- A row of the frame produced by prepare_weather: the smoothing-resampled
weather columns inner-joined with the exogenous columns on the
(pp_id, dt) index, with the inverter identity reattached. -/
structure MRow where
  pp_id : Option Int
  inv_id : Int
  dt : Int
  src_dt : Option Rat
  summary : Option String
  temp : Option Rat
  ipolated : Option Bool
  epolated : Option Bool
  sun_altitude : Rat
deriving Repr, DecidableEq

/-- assemble.py SolarDBAssembler.prepare_weather (lines 112-170): fetch the
smoothing-resampled weather under the chosen scheme, fetch the exogenous
frame for the same window, and merge the two on their shared index (a
pandas inner join that keeps the left row order). -/
def prepare_weather (wdb : List WeatherRec) (edb : List ExoRec) (pp : PPIdT)
    (dt_start dt_end : DTArg) (weather_scheme : WeatherScheme)
    (forecast_delta : Option Int) : Except String (List MRow) :=
  match get_pp_id pp with
  | .error e => .error e
  | .ok p =>
    let s := convert_date_time dt_start
    let de := convert_date_time dt_end
    match (match weather_scheme with
      | .measured =>
        get_pp_weather wdb (some p) (some (.datetime s)) (some (.datetime de))
          (some 0) none true true
      | .forecast =>
        match forecast_delta with
        | none => .error "forecast weather sampling used but forecast_delta is not set"
        | some d =>
          get_pp_weather wdb (some p) (some (.datetime s)) (some (.datetime de))
            (some d) none true true
      | .realistic =>
        get_pp_weather wdb (some p) (some (.datetime s)) (some (.datetime de))
          none (some s) true true) with
    | .error e => .error e
    | .ok wrows =>
      let erows := get_pp_exogenous edb (some p) (some (.datetime s))
        (some (.datetime de)) true
      .ok (wrows.flatMap (fun w =>
        (erows.filter (fun x => x.pp_id == w.pp_id && x.dt == w.dt)).map (fun x =>
          { pp_id := w.pp_id, inv_id := p.inv_id.getD (-1), dt := w.dt,
            src_dt := w.src_dt, summary := w.summary, temp := w.temp,
            ipolated := w.ipolated, epolated := w.epolated,
            sun_altitude := x.sun_altitude })))

/-- A row of a frame handed to the evaluator: the identity index levels,
the timestamp, and the power column (missing values as none). -/
structure EvRow where
  pp_id : Int
  inv_id : Int
  dt : Int
  power : Option Rat
deriving Repr, DecidableEq

/-- A prediction or history frame handed to the evaluator.  hasIdCols says
whether pp_id and inv_id are index levels of the frame; hasPower and
hasPredType say whether a column named power, respectively a column named
after the prediction_type argument, is present. -/
structure EvFrame where
  hasIdCols : Bool
  hasPower : Bool
  hasPredType : Bool
  rows : List EvRow
deriving Repr, DecidableEq

/-- A weather frame handed to the evaluator; only its length and its dt
index level take part in the validation logic. -/
structure WthFrame where
  dts : List Int
deriving Repr, DecidableEq

/-- The data passed on to the statistics stage of evaluate_prediction once
every validation has passed: the resolved identity, the prediction time
span, and which optional comparisons run.  The statistics themselves are
floating-point aggregates outside the scope of this embedding; the claims
under verification concern only whether the call raises. -/
structure EvalArgs where
  pp : PowerPlantID
  dt_start : Int
  dt_end : Int
  with_weather : Bool
  with_history : Bool
deriving Repr, DecidableEq

/-- The identity fix-up applied to a frame without full index columns
(evaluate.py lines 188-191 and 197-200): reattach pp_id and inv_id from
the pp_id argument, or zero when absent. -/
def evAssignIds (pp_id : Option PowerPlantID) (f : EvFrame) : EvFrame :=
  { f with hasIdCols := true,
           rows := f.rows.map (fun r =>
             { r with
               pp_id := match pp_id with | none => 0 | some p => p.pp_id,
               inv_id := match pp_id with
                 | none => 0
                 | some p => if p.is_whole_power_plant then -1 else p.inv_id.getD 0 }) }

/-- evaluate.py lines 184-191: the prediction frame is rebuilt with the
identity attached when it lacks the index columns, failing when neither a
pp_id argument nor an empty frame allows that. -/
def evFixPrediction (prediction_df : EvFrame) (pp_id : Option PowerPlantID) :
    Except String EvFrame :=
  if !prediction_df.hasIdCols then
    (if pp_id.isNone && decide (prediction_df.rows.length > 0) then
      .error "Prediction frame is missing indices"
     else .ok (evAssignIds pp_id prediction_df))
  else .ok prediction_df

/-- evaluate.py lines 193-200: when the history frame lacks the index
columns it is replaced by a copy of the (already fixed) prediction frame
with the identity attached, exactly as line 197 builds the new history
from prediction_df. -/
def evFixHistory (pred history_df : EvFrame) (pp_id : Option PowerPlantID)
    (has_history : Bool) : Except String EvFrame :=
  if !history_df.hasIdCols then
    (if pp_id.isNone && has_history then
      .error "History frame is missing indices"
     else .ok (evAssignIds pp_id pred))
  else .ok history_df

/-- evaluate.py lines 202-254: the validation chain run after the two
index fix-ups, ending in the arguments of the statistics stage.  The
weather frame is reindexed onto the prediction index (line 212) before
the time spans are compared (lines 229-236). -/
def evChecks (pred hist0 : EvFrame) (weather_df : WthFrame)
    (has_history has_weather : Bool) : Except String EvalArgs :=
  if !pred.hasPower then
    .error "Provided prediction DataFrame does not contain power column"
  else if decide (pred.rows.countP (fun r => r.power.isSome) ≠ pred.rows.length) then
    .error "Provided prediction DataFrame contains NaN or other invalid values"
  else if has_weather && decide (weather_df.dts.length ≠ pred.rows.length) then
    .error "Prediction and Weather DataFrames are not the same length"
  else
    let weather2 : WthFrame :=
      if has_weather then { dts := pred.rows.map (fun r => r.dt) } else weather_df
    let hist := if has_history && hist0.hasPredType && !hist0.hasPower then
      { hist0 with hasPower := true } else hist0
    if has_history && !hist.hasPower then
      .error "Provided history DataFrame does not contain power column"
    else
      let ppList := (pred.rows.map (fun r => r.pp_id)).dedup
      let invList := (pred.rows.map (fun r => r.inv_id)).dedup
      if decide (ppList.length ≠ 1) || decide (invList.length ≠ 1) then
        .error "Prediction DataFrame does not contain precisely one power plant"
      else
        let dts := pred.rows.map (fun r => r.dt)
        let dtStart := (colMin? (fun t => t) dts).getD 0
        let dtEnd := (colMax? (fun t => t) dts).getD 0
        let dtWthStart := if has_weather then (colMin? (fun t => t) weather2.dts).getD 0 else dtStart
        let dtWthEnd := if has_weather then (colMax? (fun t => t) weather2.dts).getD 0 else dtEnd
        if has_weather && (decide (dtStart ≠ dtWthStart) || decide (dtEnd ≠ dtWthEnd)) then
          .error "Provided weather DataFrame does not cover the same range"
        else
          .ok { pp := { pp_id := ppList.headD 0, inv_id := some (invList.headD 0) },
                dt_start := dtStart, dt_end := dtEnd,
                with_weather := has_weather, with_history := has_history }

/-- evaluate.py SolarDBEvaluator.evaluate_prediction (lines 153-254),
validation logic.  Every RuntimeError of the source is an error here; on
success the arguments of the statistics stage are returned. -/
def evaluate_prediction (prediction_df : EvFrame) (history_df : EvFrame)
    (weather_df : WthFrame) (pp_id : Option PowerPlantID) :
    Except String EvalArgs :=
  let has_history := decide (history_df.rows.length > 0)
  let has_weather := decide (weather_df.dts.length > 0)
  match evFixPrediction prediction_df pp_id with
  | .error e => .error e
  | .ok pred =>
    match evFixHistory pred history_df pp_id has_history with
    | .error e => .error e
    | .ok hist0 => evChecks pred hist0 weather_df has_history has_weather

/-- Weather fixture of the measured-scheme scenario: hourly rows at age 0
for minute 0 (10 degrees) and minute 60 (12 degrees) of plant 7. -/
def wdbC2 : List WeatherRec :=
  [ { pp_id := 7, dt := 0, age := 0, src_dt := 0, summary := "clear",
      temp := 10, ipolated := false, epolated := false },
    { pp_id := 7, dt := 60, age := 0, src_dt := 0, summary := "clear",
      temp := 12, ipolated := false, epolated := false } ]

/-- Exogenous fixture covering the twelve five-minute grid points of the
measured-scheme scenario window for plant 7. -/
def edbC2 : List ExoRec :=
  (List.range 12).map (fun k => { pp_id := 7, dt := 5 * (k : Int), sun_altitude := 1 })

/-- The frame produced by prepare_weather on the scenario fixture. -/
def c2out : List MRow :=
  (prepare_weather wdbC2 edbC2 (.pp { pp_id := 7, inv_id := none })
    (.datetime 0) (.datetime 60) .measured none).toOption.getD []

/-- Weather fixture with three hourly measured rows of plant 1 covering a
two-hour window, used to instantiate the resampling density theorem. -/
def wdbC1 : List WeatherRec :=
  [ { pp_id := 1, dt := 0, age := 0, src_dt := 0, summary := "s",
      temp := 10, ipolated := false, epolated := false },
    { pp_id := 1, dt := 60, age := 0, src_dt := 60, summary := "s",
      temp := 12, ipolated := false, epolated := false },
    { pp_id := 1, dt := 120, age := 0, src_dt := 120, summary := "s",
      temp := 11, ipolated := false, epolated := false } ]

/-- The smoothing-resampled frame of the density fixture. -/
def c1wOut : List WRow :=
  (get_pp_weather wdbC1 (some { pp_id := 1, inv_id := none })
    (some (.datetime 0)) (some (.datetime 120)) (some 0) none true false).toOption.getD []

/-- Weather fixture with three forecasts for the same timestamp of plant 1:
ages 2 and 1 issued before the cutoff, age 0 issued after it. -/
def wdbC6 : List WeatherRec :=
  [ { pp_id := 1, dt := 60, age := 2, src_dt := 0, summary := "old",
      temp := 5, ipolated := false, epolated := false },
    { pp_id := 1, dt := 60, age := 1, src_dt := 30, summary := "fresh",
      temp := 6, ipolated := false, epolated := false },
    { pp_id := 1, dt := 60, age := 0, src_dt := 70, summary := "late",
      temp := 7, ipolated := false, epolated := false } ]

/-- The latest-available-before-cutoff frame of the cutoff fixture. -/
def c6out : List WRow :=
  (get_pp_weather wdbC6 (some { pp_id := 1, inv_id := none })
    none none none (some 60) false false).toOption.getD []

/-- Two-plant weather fixture: plant 1 has anchors at minutes 0, 60 and
120, plant 2 only at minutes 65 and 115, so the leading grid rows of
plant 2 carry no anchor values. -/
def wdbC7 : List WeatherRec :=
  [ { pp_id := 1, dt := 0, age := 0, src_dt := 0, summary := "a0",
      temp := 1, ipolated := false, epolated := false },
    { pp_id := 1, dt := 60, age := 0, src_dt := 60, summary := "a60",
      temp := 2, ipolated := false, epolated := false },
    { pp_id := 1, dt := 120, age := 0, src_dt := 120, summary := "a120",
      temp := 3, ipolated := false, epolated := false },
    { pp_id := 2, dt := 65, age := 0, src_dt := 65, summary := "b65",
      temp := 10, ipolated := false, epolated := false },
    { pp_id := 2, dt := 115, age := 0, src_dt := 115, summary := "b115",
      temp := 11, ipolated := false, epolated := false } ]

/-- The multi-plant smoothing resample of the two-plant fixture. -/
def c7out : List WRow :=
  (get_pp_weather wdbC7 none (some (.datetime 0)) (some (.datetime 120))
    (some 0) none true false).toOption.getD []

/-- A power record at noon of day 1 (2021-01-02 12:00). -/
def powerRecC4 : PowerRec :=
  { pp_id := 1, inv_id := -1, dt := 2160, power_ac := 4, power_dc := 5,
    ipolated := false, epolated := false }

/-- A weather record at noon of day 1. -/
def weatherRecC4 : WeatherRec :=
  { pp_id := 1, dt := 2160, age := 0, src_dt := 2160, summary := "s",
    temp := 1, ipolated := false, epolated := false }

/-- An exogenous record at noon of day 1. -/
def exoRecC4 : ExoRec := { pp_id := 1, dt := 2160, sun_altitude := 1 }

/-- The history frame of the empty-table scenario: start at minute 0,
three rows, fallback disabled. -/
def c8out : List HRow :=
  (prepare_history [] (.pp { pp_id := 1, inv_id := none })
    (.datetime 0) 3 false).toOption.getD []

/-- A prediction frame with full index columns whose only power value is
missing. -/
def predC9 : EvFrame :=
  { hasIdCols := true, hasPower := true, hasPredType := false,
    rows := [ { pp_id := 3, inv_id := -1, dt := 0, power := none } ] }

/-- A fully populated two-row prediction frame over minutes 0 and 5. -/
def predC10 : EvFrame :=
  { hasIdCols := true, hasPower := true, hasPredType := false,
    rows := [ { pp_id := 3, inv_id := -1, dt := 0, power := some 1 },
              { pp_id := 3, inv_id := -1, dt := 5, power := some 2 } ] }

/-- A three-row history frame: one row more than the prediction frame and
a disjoint time span. -/
def histC10 : EvFrame :=
  { hasIdCols := true, hasPower := true, hasPredType := false,
    rows := [ { pp_id := 3, inv_id := -1, dt := 50, power := some 1 },
              { pp_id := 3, inv_id := -1, dt := 55, power := some 1 },
              { pp_id := 3, inv_id := -1, dt := 60, power := some 1 } ] }

/-- A two-row weather frame whose time span is disjoint from the
prediction frame (same row count). -/
def wthC10 : WthFrame := { dts := [100, 200] }

/-- A one-element weather frame, shorter than the two-row prediction
frame, used to instantiate the length-mismatch theorem. -/
def wthC10len : WthFrame := { dts := [100] }

/-- Claim C3, counterexample: the claim asserts that no identity compares
less than itself, in particular that the whole-plant identity does not,
but the source __lt__ returns true whenever the plant ids are equal and
the left inv_id is none, so the whole-plant identity of plant 0 compares
less than itself. -/
theorem c3_whole_plant_lt_self_counterexample :
    PowerPlantID.lt { pp_id := 0, inv_id := none } { pp_id := 0, inv_id := none } = true := by
  decide

/-- Claim C3, amended: the ordering compares plant ids first; for a fixed
plant the whole-plant identity sorts before every inverter identity and
inverters compare by their own id, with irreflexivity holding for
inverter identities; however the whole-plant identity compares less than
itself (and, by the same clause, less than the whole-plant identity of
the same plant generally), so the order is strict only away from the
whole-plant self-comparison. -/
theorem c3_ordering_amended :
    (∀ x y : PowerPlantID, x.pp_id < y.pp_id → PowerPlantID.lt x y = true)
    ∧ (∀ x y : PowerPlantID, y.pp_id < x.pp_id → PowerPlantID.lt x y = false)
    ∧ (∀ p i : Int, PowerPlantID.lt { pp_id := p, inv_id := none } { pp_id := p, inv_id := some i } = true)
    ∧ (∀ p i : Int, PowerPlantID.lt { pp_id := p, inv_id := some i } { pp_id := p, inv_id := none } = false)
    ∧ (∀ p i j : Int, (PowerPlantID.lt { pp_id := p, inv_id := some i } { pp_id := p, inv_id := some j } = true ↔ i < j))
    ∧ (∀ p i : Int, PowerPlantID.lt { pp_id := p, inv_id := some i } { pp_id := p, inv_id := some i } = false)
    ∧ (∀ p : Int, PowerPlantID.lt { pp_id := p, inv_id := none } { pp_id := p, inv_id := none } = true) := by
  refine ⟨?_, ?_, ?_, ?_, ?_, ?_, ?_⟩
  · intro x y h
    simp [PowerPlantID.lt, h]
  · intro x y h
    have h1 : ¬ x.pp_id < y.pp_id := by omega
    have h2 : ¬ x.pp_id = y.pp_id := by omega
    simp [PowerPlantID.lt, h1, h2]
  · intro p i
    simp [PowerPlantID.lt]
  · intro p i
    simp [PowerPlantID.lt]
  · intro p i j
    simp [PowerPlantID.lt]
  · intro p i
    simp [PowerPlantID.lt]
  · intro p
    simp [PowerPlantID.lt]

/-- Witness for the amended ordering theorem at concrete identities. -/
theorem c3_ordering_amended_witness :
    PowerPlantID.lt { pp_id := 0, inv_id := some 5 } { pp_id := 1, inv_id := none } = true :=
  c3_ordering_amended.1 { pp_id := 0, inv_id := some 5 } { pp_id := 1, inv_id := none } (by decide)

/-- Claim C5, counterexample: resolving the bare integer 5 produces the
identity with inv_id = -1, for which is_whole_power_plant is false and
which is not equal (by the source __eq__) to the canonical whole-plant
identity with inv_id = none. -/
theorem c5_int_resolution_counterexample :
    get_pp_id (.int 5) = .ok { pp_id := 5, inv_id := some (-1) }
    ∧ PowerPlantID.is_whole_power_plant { pp_id := 5, inv_id := some (-1) } = false
    ∧ PowerPlantID.peq { pp_id := 5, inv_id := some (-1) } { pp_id := 5, inv_id := none } = false :=
  ⟨rfl, rfl, rfl⟩

/-- Claim C5, amended: a bare integer p and the singleton sequence
containing p both resolve to the identity with inv_id = -1 (the storage
sentinel under which whole-plant rows are keyed, per tables.py), not to
the inv_id = none identity: is_whole_power_plant does not hold for the
result.  An already resolved identity is returned unchanged. -/
theorem c5_resolution_amended :
    (∀ p : Int, get_pp_id (.int p) = .ok { pp_id := p, inv_id := some (-1) })
    ∧ (∀ p : Int, get_pp_id (.seq [p]) = .ok { pp_id := p, inv_id := some (-1) })
    ∧ (∀ p : Int, PowerPlantID.is_whole_power_plant { pp_id := p, inv_id := some (-1) } = false)
    ∧ (∀ q : PowerPlantID, get_pp_id (.pp q) = .ok q) :=
  ⟨fun _ => rfl, fun _ => rfl, fun _ => rfl, fun _ => rfl⟩

/-- Claim C4: the record of powerRecC4 is timestamped at noon within
day 1, yet a query bounded by the bare date 1 excludes it in all three
fetch operations, because data.py normalizes a bare-date dt_end with
date_earliest_date_time (start of day) instead of date_latest_date_time
(end of day). -/
theorem c4_bare_date_end_excludes_day :
    date_earliest_date_time 1 ≤ powerRecC4.dt
    ∧ powerRecC4.dt ≤ date_latest_date_time 1
    ∧ get_pp_power [powerRecC4] none none (some (.date 1)) false = []
    ∧ get_pp_weather [weatherRecC4] none none (some (.date 1)) none none false false = .ok []
    ∧ get_pp_exogenous [exoRecC4] none none (some (.date 1)) false = [] :=
  ⟨by decide, by decide, rfl, rfl, rfl⟩

unseal Rat.add Rat.mul Rat.inv Rat.sub in
/-- Claim C2: on the scenario fixture, prepare_weather with the measured
scheme over the window from minute 0 to minute 60 yields exactly 12 rows
at minutes 0, 5, ..., 55, with temperature exactly linear in elapsed
time, 10 + k/6 at the k-th row (the value 71/6 at the final row is the
11.8333 of the scenario), every intermediate value strictly between the
two anchors. -/
theorem c2_measured_scenario :
    prepare_weather wdbC2 edbC2 (.pp { pp_id := 7, inv_id := none })
      (.datetime 0) (.datetime 60) .measured none = .ok c2out
    ∧ c2out.length = 12
    ∧ (∀ i : Fin c2out.length, (c2out.get i).dt = 5 * ((i : Nat) : Int)
        ∧ (c2out.get i).temp = some (10 + ((i : Nat) : Rat) / 6))
    ∧ (∀ i : Fin c2out.length, 1 ≤ (i : Nat) →
        10 < ((c2out.get i).temp.getD 0) ∧ ((c2out.get i).temp.getD 0) < 12) := by
  refine ⟨rfl, by decide, by decide, by decide⟩

/-- Claim C7, counterexample: in the two-plant fixture the resampled frame
carries, at its 26th row (the first grid row of plant 2, minute 0), the
summary value a120 that occurs only in the rows of plant 1: the forward
fill of the summary column crossed the plant boundary.  The last conjunct
records that no record of plant 2 carries that summary. -/
theorem c7_cross_plant_ffill_counterexample :
    (get_pp_weather wdbC7 none (some (.datetime 0)) (some (.datetime 120))
      (some 0) none true false = .ok c7out)
    ∧ ((c7out.drop 25).head?.map (fun r => (r.pp_id, r.dt, r.summary))
        = some (some 2, 0, some "a120"))
    ∧ (∀ r ∈ wdbC7, r.pp_id = 2 → r.summary ≠ "a120") := by
  refine ⟨rfl, by decide, by decide⟩

/-- Claim C10, counterexample: a prediction frame of two rows over minutes
0 to 5, a supplied non-empty history frame of three rows over a disjoint
span, and a supplied weather frame of matching length but disjoint span
are all accepted: evaluate_prediction returns the statistics arguments
instead of raising, although both supplied frames disagree with the
prediction frame in the sense of the claim. -/
theorem c10_mismatch_accepted_counterexample :
    evaluate_prediction predC10 histC10 wthC10 none
      = .ok { pp := { pp_id := 3, inv_id := some (-1) }, dt_start := 0, dt_end := 5,
              with_weather := true, with_history := true }
    ∧ histC10.rows.length ≠ predC10.rows.length
    ∧ wthC10.dts.length = predC10.rows.length
    ∧ (colMin? (fun t => t) wthC10.dts ≠ colMin? (fun t => t) (predC10.rows.map (fun r => r.dt)))
    ∧ (colMax? (fun t => t) wthC10.dts ≠ colMax? (fun t => t) (predC10.rows.map (fun r => r.dt))) := by
  refine ⟨rfl, by decide, by decide, by decide, by decide⟩

/-- A list containing a row with a missing power value fails the pandas
count check: the number of non-missing power values differs from the
length. -/
theorem countP_ne_of_mem_none (l : List EvRow) (r : EvRow) (hr : r ∈ l)
    (hn : r.power = none) :
    l.countP (fun s => s.power.isSome) ≠ l.length := by
  intro h
  have hall := List.countP_eq_length.mp h r hr
  rw [hn] at hall
  simp at hall

/-- The identity fix-up keeps the power column of every row. -/
theorem evAssignIds_mem_power (pp : Option PowerPlantID) (f : EvFrame) (r : EvRow)
    (hr : r ∈ f.rows) :
    ∃ s ∈ (evAssignIds pp f).rows, s.power = r.power := by
  exact ⟨_, List.mem_map_of_mem _ hr, rfl⟩

/-- Claim C9: whenever the prediction frame carries a power column with at
least one missing value, evaluate_prediction raises (returns an error) on
every input, in particular no statistics arguments are produced. -/
theorem c9_missing_power_raises (pred hist : EvFrame) (wth : WthFrame)
    (pp : Option PowerPlantID) (r : EvRow)
    (hp : pred.hasPower = true) (hr : r ∈ pred.rows) (hnone : r.power = none) :
    ∃ msg, evaluate_prediction pred hist wth pp = .error msg := by
  simp only [evaluate_prediction]
  cases heq : evFixPrediction pred pp with
  | error e => exact ⟨e, rfl⟩
  | ok pred2 =>
    dsimp only
    have hpred2 : pred2.hasPower = true ∧ ∃ s ∈ pred2.rows, s.power = none := by
      unfold evFixPrediction at heq
      split at heq
      · split at heq
        · exact absurd heq (by simp)
        · rw [Except.ok.injEq] at heq
          subst heq
          obtain ⟨s, hs, hsp⟩ := evAssignIds_mem_power pp pred r hr
          exact ⟨hp, s, hs, hsp.trans hnone⟩
      · rw [Except.ok.injEq] at heq
        subst heq
        exact ⟨hp, r, hr, hnone⟩
    obtain ⟨hp2, s, hs, hsnone⟩ := hpred2
    have hc : pred2.rows.countP (fun t => t.power.isSome) ≠ pred2.rows.length :=
      countP_ne_of_mem_none pred2.rows s hs hsnone
    cases heq2 : evFixHistory pred2 hist pp (decide (hist.rows.length > 0)) with
    | error e => exact ⟨e, rfl⟩
    | ok hist0 =>
      simp only [evChecks, hp2, Bool.not_true, Bool.false_eq_true, if_false,
        decide_eq_true hc, if_true]
      exact ⟨_, rfl⟩

/-- Witness for the missing-power theorem on the one-row fixture. -/
theorem c9_missing_power_raises_witness :
    ∃ msg, evaluate_prediction predC9
      { hasIdCols := true, hasPower := false, hasPredType := false, rows := [] }
      { dts := [] } none = .error msg :=
  c9_missing_power_raises predC9
    { hasIdCols := true, hasPower := false, hasPredType := false, rows := [] }
    { dts := [] } none { pp_id := 3, inv_id := -1, dt := 0, power := none }
    rfl (by simp [predC9]) rfl

/-- The identity fix-up keeps the number of rows. -/
theorem evAssignIds_length (pp : Option PowerPlantID) (f : EvFrame) :
    (evAssignIds pp f).rows.length = f.rows.length := by
  simp [evAssignIds]

/-- Claim C10, amended: a supplied non-empty weather frame whose row count
differs from the prediction frame always makes evaluate_prediction raise;
the corresponding time-span comparison can never fire, because the
weather frame is first reindexed onto the prediction index (see the
counterexample, where disjoint spans are accepted), and supplied history
frames are not validated against the prediction frame at all (same
counterexample, mismatched history length accepted). -/
theorem c10_weather_length_mismatch_raises (pred hist : EvFrame) (wth : WthFrame)
    (pp : Option PowerPlantID)
    (hne : wth.dts.length ≠ 0) (hlen : wth.dts.length ≠ pred.rows.length) :
    ∃ msg, evaluate_prediction pred hist wth pp = .error msg := by
  simp only [evaluate_prediction]
  cases heq : evFixPrediction pred pp with
  | error e => exact ⟨e, rfl⟩
  | ok pred2 =>
    dsimp only
    have hlen2 : wth.dts.length ≠ pred2.rows.length := by
      unfold evFixPrediction at heq
      split at heq
      · split at heq
        · exact absurd heq (by simp)
        · rw [Except.ok.injEq] at heq
          subst heq
          rw [evAssignIds_length]
          exact hlen
      · rw [Except.ok.injEq] at heq
        subst heq
        exact hlen
    have hw : decide (wth.dts.length > 0) = true := by
      simp only [decide_eq_true_eq]
      omega
    cases heq2 : evFixHistory pred2 hist pp (decide (hist.rows.length > 0)) with
    | error e => exact ⟨e, rfl⟩
    | ok hist0 =>
      by_cases hhp : pred2.hasPower = true
      · by_cases hcp : pred2.rows.countP (fun t => t.power.isSome) = pred2.rows.length
        · have hcpd : decide (pred2.rows.countP (fun t => t.power.isSome) ≠ pred2.rows.length) = false := by
            simp [hcp]
          simp only [evChecks, hhp, Bool.not_true, Bool.false_eq_true, if_false,
            hcpd, hw, decide_eq_true hlen2, Bool.and_true, if_true]
          exact ⟨_, rfl⟩
        · have hcp2 : pred2.rows.countP (fun t => t.power.isSome) ≠ pred2.rows.length := hcp
          simp only [evChecks, hhp, Bool.not_true, Bool.false_eq_true, if_false,
            decide_eq_true hcp2, if_true]
          exact ⟨_, rfl⟩
      · simp only [Bool.not_eq_true] at hhp
        simp only [evChecks, hhp, Bool.not_false, if_true]
        exact ⟨_, rfl⟩

/-- Witness for the weather-length theorem: a one-row weather frame
against the two-row prediction fixture. -/
theorem c10_weather_length_mismatch_raises_witness :
    ∃ msg, evaluate_prediction predC10 histC10 wthC10len none = .error msg :=
  c10_weather_length_mismatch_raises predC10 histC10 wthC10len none
    (by decide) (by decide)

/-- Length of the half-open grid. -/
theorem length_dateRangeLeft (s e st : Int) :
    (dateRangeLeft s e st).length = ((e - s + st - 1) / st).toNat := by
  unfold dateRangeLeft
  rw [List.length_map, List.length_range]

/-- The i-th grid point. -/
theorem getElem_dateRangeLeft (s e st : Int) (i : Nat)
    (h : i < (dateRangeLeft s e st).length) :
    (dateRangeLeft s e st)[i] = s + st * (i : Int) := by
  unfold dateRangeLeft at h ⊢
  rw [List.getElem_map, List.getElem_range]

/-- Every row of a power fetch stems from a stored record passing the
WHERE clause and keeps its timestamp. -/
theorem get_pp_power_mem (pdb : List PowerRec) (pp : Option PowerPlantID)
    (ds de : Option DTArg) (ai : Bool) (r : PRow)
    (hr : r ∈ get_pp_power pdb pp ds de ai) :
    ∃ rec ∈ pdb,
      powerWhere pp (ds.map dtArgEarliest) (de.map dtArgEarliest) rec = true
      ∧ r.dt = rec.dt := by
  simp only [get_pp_power] at hr
  obtain ⟨rec, hrec, rfl⟩ := List.mem_map.mp hr
  have hmem := (List.perm_insertionSort pkeyLe _).mem_iff.mp hrec
  obtain ⟨hin, hfil⟩ := List.mem_filter.mp hmem
  exact ⟨rec, hin, hfil, rfl⟩

/-- Dropping the bounds from a passing WHERE clause keeps it passing. -/
theorem powerWhere_drop_bounds (pp : Option PowerPlantID) (ds de : Option Int)
    (r : PowerRec) (h : powerWhere pp ds de r = true) :
    powerWhere pp none none r = true := by
  unfold powerWhere at h ⊢
  simp only [Bool.and_eq_true] at h
  simp [h.1]

/-- The grid timestamp of a filled history row. -/
theorem historyFillRow_dt (taken : List PRow) (p : PowerPlantID) (t : Int) :
    (historyFillRow taken p t).dt = t := by
  unfold historyFillRow
  cases hf : List.find? (fun r => r.dt == t) taken <;> rfl

/-- Claim C8: with fallback disabled, prepare_history returns exactly n
rows at the five-minute timestamps from start minus 5n to start minus 5,
and every grid timestamp without a stored record for the identity is
zero-filled with ipolated false and epolated true. -/
theorem c8_prepare_history_zero_fill (pdb : List PowerRec) (p : PowerPlantID)
    (s : Int) (n : Nat) (out : List HRow) (hn : 1 ≤ n)
    (hout : prepare_history pdb (.pp p) (.datetime s) n false = .ok out) :
    out.length = n
    ∧ (∀ i : Fin out.length, (out.get i).dt = s - 5 * (n : Int) + 5 * ((i : Nat) : Int))
    ∧ (∀ i : Fin out.length,
        (∀ rec ∈ pdb, powerWhere (some p) none none rec = true →
          rec.dt ≠ s - 5 * (n : Int) + 5 * ((i : Nat) : Int)) →
        (out.get i).power_ac = 0 ∧ (out.get i).power_dc = 0
        ∧ (out.get i).ipolated = false ∧ (out.get i).epolated = true) := by
  simp only [prepare_history, get_pp_id, convert_date_time, dtArgEarliest,
    Bool.false_eq_true, if_false, P_FREQUENCY, prepare_frame_index] at hout
  split at hout
  case isFalse => exact absurd hout (by simp)
  case isTrue hnd =>
    rw [Except.ok.injEq] at hout
    subst hout
    have hlen : (List.map
        (historyFillRow ((get_pp_power pdb (some p) (some (.datetime (s - 5 * (n : Int))))
          (some (.datetime s)) true).take n) p)
        (dateRangeLeft (s - 5 * (n : Int)) s 5)).length = n := by
      rw [List.length_map, length_dateRangeLeft]
      omega
    refine ⟨hlen, ?_, ?_⟩
    · intro i
      have hi := i.isLt
      rw [List.get_eq_getElem, List.getElem_map, historyFillRow_dt,
        getElem_dateRangeLeft]
    · intro i hno
      have hi := i.isLt
      rw [List.get_eq_getElem, List.getElem_map]
      have ht : (dateRangeLeft (s - 5 * (n : Int)) s 5)[(i : Nat)] =
          s - 5 * (n : Int) + 5 * ((i : Nat) : Int) := by
        rw [getElem_dateRangeLeft]
      rw [ht]
      have hfind : ((get_pp_power pdb (some p) (some (.datetime (s - 5 * (n : Int))))
          (some (.datetime s)) true).take n).find?
          (fun r => r.dt == s - 5 * (n : Int) + 5 * ((i : Nat) : Int)) = none := by
        cases hf : ((get_pp_power pdb (some p) (some (.datetime (s - 5 * (n : Int))))
            (some (.datetime s)) true).take n).find?
            (fun r => r.dt == s - 5 * (n : Int) + 5 * ((i : Nat) : Int)) with
        | none => rfl
        | some r =>
          exfalso
          have hrt : r.dt = s - 5 * (n : Int) + 5 * ((i : Nat) : Int) := by
            have hps := List.find?_some hf
            simpa using hps
          have hrm : r ∈ get_pp_power pdb (some p)
              (some (.datetime (s - 5 * (n : Int)))) (some (.datetime s)) true :=
            List.take_subset _ _ (List.mem_of_find?_eq_some hf)
          obtain ⟨rec, hin, hfil, hdt⟩ := get_pp_power_mem _ _ _ _ _ _ hrm
          exact hno rec hin (powerWhere_drop_bounds _ _ _ _ hfil) (by omega)
      unfold historyFillRow
      rw [hfind]
      exact ⟨rfl, rfl, rfl, rfl⟩

/-- Witness for the history theorem: the empty-table scenario at start
minute 0 with three rows gives timestamps -15, -10, -5 (23:45, 23:50 and
23:55 of the previous day) with zero power and the extrapolated flag. -/
theorem c8_prepare_history_zero_fill_witness :
    c8out.length = 3
    ∧ (∀ i : Fin c8out.length, (c8out.get i).dt = 0 - 5 * (3 : Int) + 5 * ((i : Nat) : Int))
    ∧ (∀ i : Fin c8out.length,
        (∀ rec ∈ ([] : List PowerRec),
          powerWhere (some { pp_id := 1, inv_id := none }) none none rec = true →
          rec.dt ≠ 0 - 5 * (3 : Int) + 5 * ((i : Nat) : Int)) →
        (c8out.get i).power_ac = 0 ∧ (c8out.get i).power_dc = 0
        ∧ (c8out.get i).ipolated = false ∧ (c8out.get i).epolated = true) :=
  c8_prepare_history_zero_fill [] { pp_id := 1, inv_id := none } 0 3 c8out
    (by decide) rfl

/-- Deduplication only keeps rows of the original frame. -/
theorem groupFirstByAux_subset (key : α → Int) :
    ∀ (fuel : Nat) (l : List α) (x : α), x ∈ groupFirstByAux key fuel l → x ∈ l := by
  intro fuel
  induction fuel with
  | zero =>
    intro l x hx
    cases l with
    | nil => simp [groupFirstByAux] at hx
    | cons r rs => simp [groupFirstByAux] at hx
  | succ fuel ih =>
    intro l x hx
    cases l with
    | nil => simp [groupFirstByAux] at hx
    | cons r rs =>
      simp only [groupFirstByAux, List.mem_cons] at hx
      rcases hx with rfl | hx2
      · exact List.mem_cons_self _ _
      · exact List.mem_cons_of_mem _ (List.mem_of_mem_filter (ih _ x hx2))

/-- Every key of the original frame survives deduplication. -/
theorem groupFirstByAux_cover (key : α → Int) :
    ∀ (fuel : Nat) (l : List α), l.length ≤ fuel →
      ∀ y ∈ l, ∃ x ∈ groupFirstByAux key fuel l, key x = key y := by
  intro fuel
  induction fuel with
  | zero =>
    intro l hl y hy
    cases l with
    | nil => simp at hy
    | cons r rs => simp at hl
  | succ fuel ih =>
    intro l hl y hy
    cases l with
    | nil => simp at hy
    | cons r rs =>
      rcases List.mem_cons.mp hy with hy1 | hy2
      · exact ⟨r, by simp [groupFirstByAux], by rw [hy1]⟩
      · by_cases hk : key y = key r
        · exact ⟨r, by simp [groupFirstByAux], hk.symm⟩
        · have hyf : y ∈ rs.filter (fun s => key s != key r) := by
            refine List.mem_filter.mpr ⟨hy2, ?_⟩
            simpa using hk
          have hlf : (rs.filter (fun s => key s != key r)).length ≤ fuel := by
            have hfl := List.length_filter_le (fun s => key s != key r) rs
            simp only [List.length_cons] at hl
            omega
          obtain ⟨x, hx, hkx⟩ := ih _ hlf y hyf
          refine ⟨x, ?_, hkx⟩
          simp only [groupFirstByAux]
          exact List.mem_cons_of_mem _ hx

/-- Deduplicated rows have pairwise distinct keys. -/
theorem groupFirstByAux_pairwise (key : α → Int) :
    ∀ (fuel : Nat) (l : List α),
      (groupFirstByAux key fuel l).Pairwise (fun a b => key a ≠ key b) := by
  intro fuel
  induction fuel with
  | zero => intro l; cases l <;> simp [groupFirstByAux]
  | succ fuel ih =>
    intro l
    cases l with
    | nil => simp [groupFirstByAux]
    | cons r rs =>
      simp only [groupFirstByAux]
      refine List.Pairwise.cons ?_ (ih _)
      intro b hb
      have hbf := groupFirstByAux_subset key fuel _ b hb
      have hbne := (List.mem_filter.mp hbf).2
      simp only [bne_iff_ne, ne_eq] at hbne
      exact fun heq => hbne heq.symm

/-- On a frame sorted by (dt, age), the surviving row of every timestamp
has the smallest age among the rows at that timestamp. -/
theorem groupFirstByAux_min_age :
    ∀ (fuel : Nat) (l : List WeatherRec), l.Sorted wkeyLe →
      ∀ x ∈ groupFirstByAux (fun r => r.dt) fuel l,
        ∀ y ∈ l, y.dt = x.dt → x.age ≤ y.age := by
  intro fuel
  induction fuel with
  | zero =>
    intro l _ x hx
    cases l with
    | nil => simp [groupFirstByAux] at hx
    | cons r rs => simp [groupFirstByAux] at hx
  | succ fuel ih =>
    intro l hs x hx y hy hdt
    cases l with
    | nil => simp at hy
    | cons r rs =>
      have hsr := List.sorted_cons.mp hs
      simp only [groupFirstByAux, List.mem_cons] at hx
      rcases hx with rfl | hx2
      · rcases List.mem_cons.mp hy with rfl | hy2
        · exact le_refl _
        · rcases hsr.1 y hy2 with hlt | ⟨heq, hage⟩
          · omega
          · exact hage
      · have hxf := groupFirstByAux_subset (fun r => r.dt) fuel _ x hx2
        have hxne := (List.mem_filter.mp hxf).2
        simp only [bne_iff_ne, ne_eq] at hxne
        rcases List.mem_cons.mp hy with rfl | hy2
        · exact absurd hdt.symm hxne
        · by_cases hyr : y.dt = r.dt
          · omega
          · have hyf : y ∈ rs.filter (fun s => s.dt != r.dt) := by
              refine List.mem_filter.mpr ⟨hy2, ?_⟩
              simpa using hyr
            exact ih _ (List.Pairwise.filter _ hsr.2) x hx2 y hyf hdt

/-- Deduplication commutes with a key-preserving row map. -/
theorem groupFirstByAux_map (key : β → Int) (key2 : α → Int) (f : α → β)
    (hf : ∀ x, key (f x) = key2 x) :
    ∀ (fuel : Nat) (l : List α),
      groupFirstByAux key fuel (l.map f) = (groupFirstByAux key2 fuel l).map f := by
  intro fuel
  induction fuel with
  | zero => intro l; cases l <;> simp [groupFirstByAux]
  | succ fuel ih =>
    intro l
    cases l with
    | nil => simp [groupFirstByAux]
    | cons r rs =>
      simp only [List.map_cons, groupFirstByAux]
      rw [List.filter_map]
      have hpred : ((fun s => key s != key (f r)) ∘ f) = (fun s => key2 s != key2 r) := by
        funext x
        simp [hf]
      rw [hpred, ih]

/-- groupFirstBy on a mapped frame, in terms of the record-level
deduplication. -/
theorem groupFirstBy_map_eq (key : β → Int) (key2 : α → Int) (f : α → β)
    (hf : ∀ x, key (f x) = key2 x) (l : List α) :
    groupFirstBy key (l.map f) = (groupFirstByAux key2 l.length l).map f := by
  unfold groupFirstBy
  rw [List.length_map]
  exact groupFirstByAux_map key key2 f hf l.length l

/-- Claim C6: in latest-available-before-cutoff mode the returned frame
has pairwise distinct timestamps (hence at most one row per plant and
timestamp), every stored record passing the WHERE clause (bounds, plant,
src_dt below the cutoff) is represented at its timestamp, and every
returned row materializes a passing record of minimal age among the
passing records at its timestamp. -/
theorem c6_latest_before_cutoff (wdb : List WeatherRec) (pp : Option PowerPlantID)
    (ds de : Option DTArg) (c : Int) (ai : Bool) (out : List WRow)
    (hout : get_pp_weather wdb pp ds de none (some c) false ai = .ok out) :
    List.Pairwise (fun a b => a.dt ≠ b.dt) out
    ∧ (∀ r ∈ wdb,
        weatherWhere pp (ds.map dtArgEarliest) (de.map dtArgEarliest) none (some c) r = true →
        ∃ o ∈ out, o.dt = r.dt)
    ∧ (∀ o ∈ out, ∃ rec ∈ wdb,
        weatherWhere pp (ds.map dtArgEarliest) (de.map dtArgEarliest) none (some c) rec = true
        ∧ o = toWRow (pp.isNone || ai) false rec
        ∧ ∀ rec2 ∈ wdb,
            weatherWhere pp (ds.map dtArgEarliest) (de.map dtArgEarliest) none (some c) rec2 = true →
            rec2.dt = rec.dt → rec.age ≤ rec2.age) := by
  have hout2 : groupFirstBy (fun r : WRow => r.dt)
      ((List.insertionSort wkeyLe
        (wdb.filter (weatherWhere pp (ds.map dtArgEarliest) (de.map dtArgEarliest) none (some c)))).map
        (toWRow (pp.isNone || ai) false)) = out := by
    simp only [get_pp_weather, Bool.false_and, Bool.false_eq_true, if_false,
      Option.isNone_none, Option.isNone_some, Option.isSome_some, Bool.and_false,
      if_true, Except.ok.injEq] at hout
    exact hout
  set recs := List.insertionSort wkeyLe
    (wdb.filter (weatherWhere pp (ds.map dtArgEarliest) (de.map dtArgEarliest) none (some c))) with hrecs
  have hsorted : recs.Sorted wkeyLe := List.sorted_insertionSort wkeyLe _
  have hperm : ∀ x : WeatherRec, x ∈ recs ↔ x ∈ wdb ∧
      weatherWhere pp (ds.map dtArgEarliest) (de.map dtArgEarliest) none (some c) x = true := by
    intro x
    rw [hrecs, (List.perm_insertionSort wkeyLe _).mem_iff, List.mem_filter]
  have hcomm : groupFirstBy (fun r : WRow => r.dt)
      (recs.map (toWRow (pp.isNone || ai) false))
      = (groupFirstByAux (fun r : WeatherRec => r.dt) recs.length recs).map
        (toWRow (pp.isNone || ai) false) :=
    groupFirstBy_map_eq _ _ _ (fun x => rfl) recs
  rw [hcomm] at hout2
  refine ⟨?_, ?_, ?_⟩
  · rw [← hout2, List.pairwise_map]
    exact groupFirstByAux_pairwise (fun r : WeatherRec => r.dt) recs.length recs
  · intro r hr hw
    have hrrecs : r ∈ recs := (hperm r).mpr ⟨hr, hw⟩
    obtain ⟨x, hx, hkx⟩ :=
      groupFirstByAux_cover (fun r : WeatherRec => r.dt) recs.length recs (le_refl _) r hrrecs
    refine ⟨toWRow (pp.isNone || ai) false x, ?_, hkx⟩
    rw [← hout2]
    exact List.mem_map_of_mem _ hx
  · intro o ho
    rw [← hout2] at ho
    obtain ⟨x, hx, rfl⟩ := List.mem_map.mp ho
    have hxrecs : x ∈ recs :=
      groupFirstByAux_subset (fun r : WeatherRec => r.dt) recs.length recs x hx
    obtain ⟨hxw, hxf⟩ := (hperm x).mp hxrecs
    refine ⟨x, hxw, hxf, rfl, ?_⟩
    intro rec2 h2w h2f h2dt
    exact groupFirstByAux_min_age recs.length recs hsorted x hx rec2
      ((hperm rec2).mpr ⟨h2w, h2f⟩) h2dt

/-- Witness for the cutoff theorem at the concrete fixture: of the three
forecasts for minute 60 only the two issued before the cutoff qualify and
the returned row carries the fresher one (age 1). -/
theorem c6_latest_before_cutoff_witness :
    ∃ rec ∈ wdbC6,
      weatherWhere (some { pp_id := 1, inv_id := none }) none none none (some 60) rec = true
      ∧ c6out.get ⟨0, by decide⟩ = toWRow false false rec
      ∧ ∀ rec2 ∈ wdbC6,
          weatherWhere (some { pp_id := 1, inv_id := none }) none none none (some 60) rec2 = true →
          rec2.dt = rec.dt → rec.age ≤ rec2.age :=
  (c6_latest_before_cutoff wdbC6 (some { pp_id := 1, inv_id := none })
    none none 60 false c6out rfl).2.2 (c6out.get ⟨0, by decide⟩)
    (List.mem_iff_get.mpr ⟨⟨0, by decide⟩, rfl⟩)

/-- Forward fill keeps the length. -/
theorem ffillList_length (acc : Option α) (vs : List (Option α)) :
    (ffillList acc vs).length = vs.length := by
  induction vs generalizing acc with
  | nil => rfl
  | cons v vs ih => cases v <;> simp [ffillList, ih]

/-- A missing source entry makes the forward fill repeat the previous
output entry. -/
theorem ffillList_stay (acc : Option α) (vs : List (Option α)) (j : Nat)
    (hj : j + 1 < vs.length) (hv : vs[j + 1] = none) :
    (ffillList acc vs).get ⟨j + 1, by rw [ffillList_length]; exact hj⟩
      = (ffillList acc vs).get ⟨j, by rw [ffillList_length]; omega⟩ := by
  simp only [List.get_eq_getElem]
  induction vs generalizing acc j with
  | nil => simp at hj
  | cons v vs ih =>
    cases j with
    | zero =>
      cases vs with
      | nil => simp at hj
      | cons w ws =>
        simp only [List.getElem_cons_succ, List.getElem_cons_zero] at hv
        subst hv
        cases v <;> simp [ffillList]
    | succ j =>
      have hj2 : j + 1 < vs.length := by simpa using hj
      have hv2 : vs[j + 1] = none := by simpa using hv
      cases v with
      | some x =>
        simp only [ffillList, List.getElem_cons_succ]
        exact ih (some x) j hj2 hv2
      | none =>
        simp only [ffillList, List.getElem_cons_succ]
        exact ih acc j hj2 hv2

/-- Length of the src_dt fix. -/
theorem fixSrcDt_length (rows : List WRow) : (fixSrcDt rows).length = rows.length := by
  simp [fixSrcDt]

/-- The src_dt fix only rewrites the src_dt field of each row. -/
theorem fixSrcDt_getElem (rows : List WRow) (i : Nat) (h : i < rows.length) :
    ∃ v, (fixSrcDt rows).get ⟨i, by rw [fixSrcDt_length]; exact h⟩
      = { rows[i] with src_dt := v } := by
  simp only [List.get_eq_getElem]
  simp only [fixSrcDt]
  rw [List.getElem_zipWith, List.getElem_range]
  exact ⟨_, rfl⟩

/-- Length of the summary fix. -/
theorem fixSummary_length (rows : List WRow) : (fixSummary rows).length = rows.length := by
  simp [fixSummary, ffillList_length]

/-- The summary fix replaces the summary field by the forward fill of the
summary column. -/
theorem fixSummary_getElem (rows : List WRow) (i : Nat) (h : i < rows.length) :
    (fixSummary rows).get ⟨i, by rw [fixSummary_length]; exact h⟩
      = { rows[i] with summary :=
            (ffillList none (rows.map (fun r => r.summary))).get ⟨i, by
              rw [ffillList_length, List.length_map]; exact h⟩ } := by
  simp only [List.get_eq_getElem]
  unfold fixSummary
  rw [List.getElem_zipWith]

/-- Length of the ipolated fix. -/
theorem fixIpolated_length (rows : List WRow) : (fixIpolated rows).length = rows.length := by
  simp [fixIpolated, ffillList_length]

/-- The ipolated fix replaces the ipolated field by the forward fill of
the ipolated column. -/
theorem fixIpolated_getElem (rows : List WRow) (i : Nat) (h : i < rows.length) :
    (fixIpolated rows).get ⟨i, by rw [fixIpolated_length]; exact h⟩
      = { rows[i] with ipolated :=
            (ffillList none (rows.map (fun r => r.ipolated))).get ⟨i, by
              rw [ffillList_length, List.length_map]; exact h⟩ } := by
  simp only [List.get_eq_getElem]
  unfold fixIpolated
  rw [List.getElem_zipWith]

/-- Length of the epolated fix. -/
theorem fixEpolated_length (rows : List WRow) : (fixEpolated rows).length = rows.length := by
  simp [fixEpolated, ffillList_length]

/-- The epolated fix replaces the epolated field by the forward fill of
the epolated column. -/
theorem fixEpolated_getElem (rows : List WRow) (i : Nat) (h : i < rows.length) :
    (fixEpolated rows).get ⟨i, by rw [fixEpolated_length]; exact h⟩
      = { rows[i] with epolated :=
            (ffillList none (rows.map (fun r => r.epolated))).get ⟨i, by
              rw [ffillList_length, List.length_map]; exact h⟩ } := by
  simp only [List.get_eq_getElem]
  unfold fixEpolated
  rw [List.getElem_zipWith]

/-- The src_dt fix keeps the summary column. -/
theorem map_summary_fixSrcDt (rows : List WRow) :
    (fixSrcDt rows).map (fun r => r.summary) = rows.map (fun r => r.summary) := by
  apply List.ext_getElem
  · simp [fixSrcDt_length]
  · intro i h1 h2
    rw [List.getElem_map, List.getElem_map]
    obtain ⟨v, hv⟩ := fixSrcDt_getElem rows i (by simpa using h2)
    simp only [List.get_eq_getElem] at hv
    rw [hv]

/-- The src_dt fix keeps the ipolated column. -/
theorem map_ipolated_fixSrcDt (rows : List WRow) :
    (fixSrcDt rows).map (fun r => r.ipolated) = rows.map (fun r => r.ipolated) := by
  apply List.ext_getElem
  · simp [fixSrcDt_length]
  · intro i h1 h2
    rw [List.getElem_map, List.getElem_map]
    obtain ⟨v, hv⟩ := fixSrcDt_getElem rows i (by simpa using h2)
    simp only [List.get_eq_getElem] at hv
    rw [hv]

/-- The src_dt fix keeps the epolated column. -/
theorem map_epolated_fixSrcDt (rows : List WRow) :
    (fixSrcDt rows).map (fun r => r.epolated) = rows.map (fun r => r.epolated) := by
  apply List.ext_getElem
  · simp [fixSrcDt_length]
  · intro i h1 h2
    rw [List.getElem_map, List.getElem_map]
    obtain ⟨v, hv⟩ := fixSrcDt_getElem rows i (by simpa using h2)
    simp only [List.get_eq_getElem] at hv
    rw [hv]

/-- The summary fix keeps the ipolated column. -/
theorem map_ipolated_fixSummary (rows : List WRow) :
    (fixSummary rows).map (fun r => r.ipolated) = rows.map (fun r => r.ipolated) := by
  apply List.ext_getElem
  · simp [fixSummary_length]
  · intro i h1 h2
    rw [List.getElem_map, List.getElem_map]
    have hv := fixSummary_getElem rows i (by simpa using h2)
    simp only [List.get_eq_getElem] at hv
    rw [hv]

/-- The summary fix keeps the epolated column. -/
theorem map_epolated_fixSummary (rows : List WRow) :
    (fixSummary rows).map (fun r => r.epolated) = rows.map (fun r => r.epolated) := by
  apply List.ext_getElem
  · simp [fixSummary_length]
  · intro i h1 h2
    rw [List.getElem_map, List.getElem_map]
    have hv := fixSummary_getElem rows i (by simpa using h2)
    simp only [List.get_eq_getElem] at hv
    rw [hv]

/-- The ipolated fix keeps the epolated column. -/
theorem map_epolated_fixIpolated (rows : List WRow) :
    (fixIpolated rows).map (fun r => r.epolated) = rows.map (fun r => r.epolated) := by
  apply List.ext_getElem
  · simp [fixIpolated_length]
  · intro i h1 h2
    rw [List.getElem_map, List.getElem_map]
    have hv := fixIpolated_getElem rows i (by simpa using h2)
    simp only [List.get_eq_getElem] at hv
    rw [hv]

/-- Length of the combined column fixes. -/
theorem applyFixes_length (rows : List WRow) : (applyFixes rows).length = rows.length := by
  simp [applyFixes, fixEpolated_length, fixIpolated_length, fixSummary_length,
    fixSrcDt_length]

/-- Row-level description of the combined column fixes: only src_dt
changes freely, the summary and flag fields become the forward fills of
their columns, everything else (pp_id, dt, age, temp) is kept. -/
theorem applyFixes_getElem (rows : List WRow) (i : Nat) (h : i < rows.length) :
    ∃ v, (applyFixes rows).get ⟨i, by rw [applyFixes_length]; exact h⟩
      = { rows[i] with
          src_dt := v,
          summary := (ffillList none (rows.map (fun r => r.summary))).get ⟨i, by
            rw [ffillList_length, List.length_map]; exact h⟩,
          ipolated := (ffillList none (rows.map (fun r => r.ipolated))).get ⟨i, by
            rw [ffillList_length, List.length_map]; exact h⟩,
          epolated := (ffillList none (rows.map (fun r => r.epolated))).get ⟨i, by
            rw [ffillList_length, List.length_map]; exact h⟩ } := by
  simp only [List.get_eq_getElem]
  obtain ⟨v, hv⟩ := fixSrcDt_getElem rows i h
  simp only [List.get_eq_getElem] at hv
  refine ⟨v, ?_⟩
  unfold applyFixes
  have e3 := fixEpolated_getElem (fixIpolated (fixSummary (fixSrcDt rows))) i
    (by rw [fixIpolated_length, fixSummary_length, fixSrcDt_length]; exact h)
  simp only [List.get_eq_getElem] at e3
  rw [e3]
  have e2 := fixIpolated_getElem (fixSummary (fixSrcDt rows)) i
    (by rw [fixSummary_length, fixSrcDt_length]; exact h)
  simp only [List.get_eq_getElem] at e2
  rw [e2]
  have e1 := fixSummary_getElem (fixSrcDt rows) i (by rw [fixSrcDt_length]; exact h)
  simp only [List.get_eq_getElem] at e1
  rw [e1]
  rw [hv]
  have h1 := map_summary_fixSrcDt rows
  have h2a := map_ipolated_fixSummary (fixSrcDt rows)
  have h2b := map_ipolated_fixSrcDt rows
  have h3a := map_epolated_fixIpolated (fixSummary (fixSrcDt rows))
  have h3b := map_epolated_fixSummary (fixSrcDt rows)
  have h3c := map_epolated_fixSrcDt rows
  simp only [h1, h2a, h2b, h3a, h3b, h3c]

/-- Reindexing a grid point yields a row at that timestamp. -/
theorem reindexRow_dt (g : List WRow) (t : Int) : (reindexRow g t).dt = t := by
  unfold reindexRow
  cases hf : g.find? (fun r => r.dt == t) with
  | none => rfl
  | some r =>
    have hp := List.find?_some hf
    simp only [beq_iff_eq] at hp
    simpa using hp

/-- The resampled group frame has one row per grid point. -/
theorem resampleRows_length (g : List WRow) (gridPts : List Int) :
    (resampleRows g gridPts).length = gridPts.length := by
  simp [resampleRows, resampleBase]

/-- The i-th resampled row sits at the i-th grid point. -/
theorem resampleRows_dt (g : List WRow) (gridPts : List Int) (i : Nat)
    (h : i < gridPts.length) :
    ((resampleRows g gridPts).get ⟨i, by rw [resampleRows_length]; exact h⟩).dt
      = gridPts[i] := by
  simp only [List.get_eq_getElem]
  unfold resampleRows resampleBase
  rw [List.getElem_map, List.getElem_map]
  exact reindexRow_dt g gridPts[i]

/-- Inversion of a successful per-group resample. -/
theorem resample_df_ok (g : List WRow) (gridPts : List Int) (rows : List WRow)
    (h : resample_df g gridPts = .ok rows) : rows = resampleRows g gridPts := by
  unfold resample_df at h
  split at h
  · rw [Except.ok.injEq] at h
    exact h.symm
  · exact absurd h (by simp)

/-- Rounding down to a multiple of a positive divisor fixes its multiples. -/
theorem freq_floor_of_dvd (t f : Int) (hf : f ≠ 0) (h : f ∣ t) :
    freq_floor t f = t := by
  obtain ⟨k, rfl⟩ := h
  unfold freq_floor
  rw [Int.mul_ediv_cancel_left _ hf]

/-- Rounding up to a multiple of a positive divisor fixes its multiples. -/
theorem freq_ceil_of_dvd (t f : Int) (hf : 0 < f) (h : f ∣ t) :
    freq_ceil t f = t := by
  obtain ⟨k, rfl⟩ := h
  unfold freq_ceil
  have h1 : f * k + f - 1 = (f - 1) + k * f := by ring
  rw [h1, Int.add_mul_ediv_right _ _ (by omega : f ≠ 0),
    Int.ediv_eq_zero_of_lt (by omega) (by omega)]
  ring

/-- The single-plant smoothing call with explicit datetime bounds and a
fixed age reduces to the resample of the sorted filtered rows over the
grid spanned by the outward-rounded bounds, followed by the column fixes
and the right-edge trim. -/
theorem get_pp_weather_smooth_single_eq (wdb : List WeatherRec) (p : PowerPlantID)
    (s e a : Int) :
    get_pp_weather wdb (some p) (some (.datetime s)) (some (.datetime e))
      (some a) none true false
    = match resample_df
        ((List.insertionSort wkeyLe (wdb.filter
          (weatherWhere (some p) (some (freq_floor s S_FREQUENCY))
            (some (freq_ceil e S_FREQUENCY)) (some a) none))).map (toWRow false false))
        (dateRangeLeft (freq_floor s S_FREQUENCY)
          (freq_ceil e S_FREQUENCY + P_FREQUENCY) P_FREQUENCY) with
      | .error msg => .error msg
      | .ok rows3 => .ok (applyFixes rows3).dropLast := rfl

/-- Claim C1: a smoothing resample of a single plant with explicit
hour-aligned bounds t0 and tn returns exactly 12 * (tn - t0) / 60 rows,
the i-th at timestamp t0 + 5 * i, every timestamp a multiple of five
minutes covering the half-open window from t0 to tn. -/
theorem c1_resampling_density (wdb : List WeatherRec) (p : PowerPlantID)
    (a t0 tn : Int) (out : List WRow)
    (h0 : 60 ∣ t0) (hn : 60 ∣ tn) (hlt : t0 < tn)
    (hout : get_pp_weather wdb (some p) (some (.datetime t0)) (some (.datetime tn))
      (some a) none true false = .ok out) :
    (out.length : Int) = 12 * ((tn - t0) / 60)
    ∧ (∀ (i : Nat) (hig : i < out.length), (out.get ⟨i, hig⟩).dt = t0 + 5 * (i : Int)
        ∧ (5 : Int) ∣ (out.get ⟨i, hig⟩).dt
        ∧ t0 ≤ (out.get ⟨i, hig⟩).dt ∧ (out.get ⟨i, hig⟩).dt < tn) := by
  rw [get_pp_weather_smooth_single_eq] at hout
  simp only [S_FREQUENCY, P_FREQUENCY] at hout
  rw [freq_floor_of_dvd t0 60 (by omega) h0, freq_ceil_of_dvd tn 60 (by omega) hn] at hout
  cases hres : resample_df
      ((List.insertionSort wkeyLe (wdb.filter
        (weatherWhere (some p) (some t0) (some tn) (some a) none))).map (toWRow false false))
      (dateRangeLeft t0 (tn + 5) 5) with
  | error msg =>
    rw [hres] at hout
    exact absurd hout (by simp)
  | ok rows3 =>
    rw [hres] at hout
    rw [Except.ok.injEq] at hout
    have hrows3 := resample_df_ok _ _ _ hres
    subst hrows3
    subst hout
    obtain ⟨k, hk⟩ := hn
    obtain ⟨k0, hk0⟩ := h0
    have hglen : (dateRangeLeft t0 (tn + 5) 5).length
        = ((tn - t0) / 5 + 1).toNat := by
      rw [length_dateRangeLeft]
      congr 1
      omega
    have hlen : ((applyFixes (resampleRows
        ((List.insertionSort wkeyLe (wdb.filter
          (weatherWhere (some p) (some t0) (some tn) (some a) none))).map (toWRow false false))
        (dateRangeLeft t0 (tn + 5) 5))).dropLast).length
        = ((tn - t0) / 5).toNat := by
      rw [List.length_dropLast, applyFixes_length, resampleRows_length, hglen]
      omega
    refine ⟨?_, ?_⟩
    · rw [hlen]
      omega
    · intro i hig0
      have hi : i < ((tn - t0) / 5).toNat := by
        rw [hlen] at hig0
        exact hig0
      have hig : i < (dateRangeLeft t0 (tn + 5) 5).length := by
        rw [hglen]
        omega
      have hdtv : ((applyFixes (resampleRows
          ((List.insertionSort wkeyLe (wdb.filter
            (weatherWhere (some p) (some t0) (some tn) (some a) none))).map (toWRow false false))
          (dateRangeLeft t0 (tn + 5) 5))).dropLast.get ⟨i, hig0⟩).dt
          = t0 + 5 * (i : Int) := by
        rw [List.get_eq_getElem, List.getElem_dropLast]
        have hia : i < (resampleRows
            ((List.insertionSort wkeyLe (wdb.filter
              (weatherWhere (some p) (some t0) (some tn) (some a) none))).map (toWRow false false))
            (dateRangeLeft t0 (tn + 5) 5)).length := by
          rw [resampleRows_length]
          exact hig
        obtain ⟨v, hv⟩ := applyFixes_getElem _ i hia
        simp only [List.get_eq_getElem] at hv
        rw [hv]
        have hdd := resampleRows_dt
          ((List.insertionSort wkeyLe (wdb.filter
            (weatherWhere (some p) (some t0) (some tn) (some a) none))).map (toWRow false false))
          (dateRangeLeft t0 (tn + 5) 5) i hig
        simp only [List.get_eq_getElem] at hdd
        rw [getElem_dateRangeLeft] at hdd
        exact hdd
      refine ⟨hdtv, ?_, ?_, ?_⟩
      · rw [hdtv]
        omega
      · rw [hdtv]
        omega
      · rw [hdtv]
        omega

/-- Witness for the density theorem: the two-hour fixture yields 24 rows
at minutes 0, 5, ..., 115. -/
theorem c1_resampling_density_witness :
    ((60 : Int) ∣ 0) ∧ ((60 : Int) ∣ 120) ∧ ((0 : Int) < 120)
    ∧ (c1wOut.length : Int) = 12 * ((120 - 0) / 60) :=
  ⟨by decide, by decide, by decide,
    (c1_resampling_density wdbC1 { pp_id := 1, inv_id := none } 0 0 120 c1wOut
      (by decide) (by decide) (by decide) rfl).1⟩

/-- Every row of a successful grouped resample comes from the resample of
the group of its own plant, with the group key reattached. -/
theorem groupedResample_mem (keys : List Int) (dfRows : List WRow) (gridPts : List Int)
    (rows3 : List WRow) (hok : groupedResample keys dfRows gridPts = .ok rows3)
    (x : WRow) (hx : x ∈ rows3) :
    ∃ p ∈ keys, ∃ y ∈ resampleRows (dfRows.filter (fun r => r.pp_id == some p)) gridPts,
      x = { y with pp_id := some p } := by
  induction keys generalizing rows3 with
  | nil =>
    simp only [groupedResample, Except.ok.injEq] at hok
    subst hok
    simp at hx
  | cons p ks ih =>
    simp only [groupedResample] at hok
    cases h1 : resample_df (dfRows.filter (fun r => r.pp_id == some p)) gridPts with
    | error msg =>
      rw [h1] at hok
      exact absurd hok (by simp)
    | ok g =>
      rw [h1] at hok
      cases h2 : groupedResample ks dfRows gridPts with
      | error msg =>
        rw [h2] at hok
        exact absurd hok (by simp)
      | ok rest =>
        rw [h2] at hok
        simp only [Except.ok.injEq] at hok
        subst hok
        rcases List.mem_append.mp hx with hxl | hxr
        · obtain ⟨y, hy, rfl⟩ := List.mem_map.mp hxl
          have hg := resample_df_ok _ _ _ h1
          subst hg
          exact ⟨p, List.mem_cons_self _ _, y, hy, rfl⟩
        · obtain ⟨q, hq, y, hy, hxy⟩ := ih rest h2 hxr
          exact ⟨q, List.mem_cons_of_mem _ hq, y, hy, hxy⟩

/-- A resampled row that carries a summary or flag value is backed by a
group row at its timestamp with exactly those values: reindexing produces
such values only when the lookup hits, and the interpolation step only
touches the float column. -/
theorem resampleRows_mem_anchor (g : List WRow) (gridPts : List Int) (y : WRow)
    (hy : y ∈ resampleRows g gridPts)
    (hs : y.summary.isSome ∨ y.ipolated.isSome ∨ y.epolated.isSome) :
    ∃ w ∈ g, w.dt = y.dt ∧ w.summary = y.summary ∧ w.ipolated = y.ipolated
      ∧ w.epolated = y.epolated := by
  unfold resampleRows at hy
  obtain ⟨b, hb, rfl⟩ := List.mem_map.mp hy
  unfold resampleBase at hb
  obtain ⟨t, ht, rfl⟩ := List.mem_map.mp hb
  revert hs
  unfold reindexRow
  cases hf : g.find? (fun r => r.dt == t) with
  | none =>
    intro hs
    simp [blankWRow] at hs
  | some w =>
    intro hs
    exact ⟨w, List.mem_of_find?_eq_some hf, rfl, rfl, rfl, rfl⟩

/-- The multi-plant smoothing call (all plants, explicit datetime bounds,
fixed age) reduces to the grouped resample over the rounded grid followed
by the global column fixes and the right-edge trim. -/
theorem get_pp_weather_smooth_multi_eq (wdb : List WeatherRec) (s e a : Int) (ai : Bool) :
    get_pp_weather wdb none (some (.datetime s)) (some (.datetime e))
      (some a) none true ai
    = match groupedResample
        (sortedKeys ((List.insertionSort wkeyLe (wdb.filter
          (weatherWhere none (some (freq_floor s S_FREQUENCY))
            (some (freq_ceil e S_FREQUENCY)) (some a) none))).map (toWRow true false)))
        ((List.insertionSort wkeyLe (wdb.filter
          (weatherWhere none (some (freq_floor s S_FREQUENCY))
            (some (freq_ceil e S_FREQUENCY)) (some a) none))).map (toWRow true false))
        (dateRangeLeft (freq_floor s S_FREQUENCY)
          (freq_ceil e S_FREQUENCY + P_FREQUENCY) P_FREQUENCY) with
      | .error msg => .error msg
      | .ok rows3 => .ok (applyFixes rows3).dropLast := rfl

/-- Claim C7, amended: in a multi-plant smoothing resample the summary,
ipolated and epolated columns change between consecutive rows of the
returned frame only at a row whose plant has a source anchor (a stored
record passing the WHERE clause) at exactly that timestamp; the forward
fill itself is global, so rows of a plant before its first anchor inherit
the previous plant rows (see the counterexample), which is what the
original per-plant confinement wording rules out. -/
theorem c7_ffill_changes_only_at_plant_anchors (wdb : List WeatherRec)
    (s e a : Int) (ai : Bool) (out : List WRow)
    (hout : get_pp_weather wdb none (some (.datetime s)) (some (.datetime e))
      (some a) none true ai = .ok out) :
    ∀ (j : Nat) (hj1 : j + 1 < out.length) (hj0 : j < out.length),
      ((out.get ⟨j + 1, hj1⟩).summary ≠ (out.get ⟨j, hj0⟩).summary
        ∨ (out.get ⟨j + 1, hj1⟩).ipolated ≠ (out.get ⟨j, hj0⟩).ipolated
        ∨ (out.get ⟨j + 1, hj1⟩).epolated ≠ (out.get ⟨j, hj0⟩).epolated) →
      ∃ rec ∈ wdb,
        weatherWhere none (some (freq_floor s S_FREQUENCY))
          (some (freq_ceil e S_FREQUENCY)) (some a) none rec = true
        ∧ some rec.pp_id = (out.get ⟨j + 1, hj1⟩).pp_id
        ∧ rec.dt = (out.get ⟨j + 1, hj1⟩).dt := by
  rw [get_pp_weather_smooth_multi_eq] at hout
  cases hgr : groupedResample
      (sortedKeys ((List.insertionSort wkeyLe (wdb.filter
        (weatherWhere none (some (freq_floor s S_FREQUENCY))
          (some (freq_ceil e S_FREQUENCY)) (some a) none))).map (toWRow true false)))
      ((List.insertionSort wkeyLe (wdb.filter
        (weatherWhere none (some (freq_floor s S_FREQUENCY))
          (some (freq_ceil e S_FREQUENCY)) (some a) none))).map (toWRow true false))
      (dateRangeLeft (freq_floor s S_FREQUENCY)
        (freq_ceil e S_FREQUENCY + P_FREQUENCY) P_FREQUENCY) with
  | error msg =>
    rw [hgr] at hout
    exact absurd hout (by simp)
  | ok rows3 =>
    rw [hgr] at hout
    rw [Except.ok.injEq] at hout
    subst hout
    intro j hj1 hj0 hdif
    have hL : ((applyFixes rows3).dropLast).length = rows3.length - 1 := by
      rw [List.length_dropLast, applyFixes_length]
    have hb1 : j + 1 < rows3.length := by
      rw [hL] at hj1
      omega
    have hb0 : j < rows3.length := by omega
    have hfs1 : j + 1 < (ffillList (none : Option String)
        (rows3.map (fun r => r.summary))).length := by
      rw [ffillList_length, List.length_map]
      exact hb1
    have hfi1 : j + 1 < (ffillList (none : Option Bool)
        (rows3.map (fun r => r.ipolated))).length := by
      rw [ffillList_length, List.length_map]
      exact hb1
    have hfe1 : j + 1 < (ffillList (none : Option Bool)
        (rows3.map (fun r => r.epolated))).length := by
      rw [ffillList_length, List.length_map]
      exact hb1
    have hfs0 : j < (ffillList (none : Option String)
        (rows3.map (fun r => r.summary))).length := by omega
    have hfi0 : j < (ffillList (none : Option Bool)
        (rows3.map (fun r => r.ipolated))).length := by omega
    have hfe0 : j < (ffillList (none : Option Bool)
        (rows3.map (fun r => r.epolated))).length := by omega
    obtain ⟨v1, hv1⟩ := applyFixes_getElem rows3 (j + 1) hb1
    simp only [List.get_eq_getElem] at hv1
    obtain ⟨v0, hv0⟩ := applyFixes_getElem rows3 j hb0
    simp only [List.get_eq_getElem] at hv0
    have hout1 : (applyFixes rows3).dropLast.get ⟨j + 1, hj1⟩
        = { rows3[j + 1] with
            src_dt := v1,
            summary := (ffillList none (rows3.map (fun r => r.summary)))[j + 1],
            ipolated := (ffillList none (rows3.map (fun r => r.ipolated)))[j + 1],
            epolated := (ffillList none (rows3.map (fun r => r.epolated)))[j + 1] } := by
      rw [List.get_eq_getElem, List.getElem_dropLast]
      exact hv1
    have hout0 : (applyFixes rows3).dropLast.get ⟨j, hj0⟩
        = { rows3[j] with
            src_dt := v0,
            summary := (ffillList none (rows3.map (fun r => r.summary)))[j],
            ipolated := (ffillList none (rows3.map (fun r => r.ipolated)))[j],
            epolated := (ffillList none (rows3.map (fun r => r.epolated)))[j] } := by
      rw [List.get_eq_getElem, List.getElem_dropLast]
      exact hv0
    have hsome : (rows3[j + 1]).summary.isSome
        ∨ (rows3[j + 1]).ipolated.isSome
        ∨ (rows3[j + 1]).epolated.isSome := by
      by_contra hno
      push_neg at hno
      obtain ⟨hna, hnb, hnc⟩ := hno
      have hea : (rows3[j + 1]).summary = none :=
        Option.not_isSome_iff_eq_none.mp hna
      have heb : (rows3[j + 1]).ipolated = none :=
        Option.not_isSome_iff_eq_none.mp hnb
      have hec : (rows3[j + 1]).epolated = none :=
        Option.not_isSome_iff_eq_none.mp hnc
      have hseq := ffillList_stay (none : Option String)
        (rows3.map (fun r => r.summary)) j
        (by rw [List.length_map]; exact hb1)
        (by rw [List.getElem_map]; exact hea)
      have hieq := ffillList_stay (none : Option Bool)
        (rows3.map (fun r => r.ipolated)) j
        (by rw [List.length_map]; exact hb1)
        (by rw [List.getElem_map]; exact heb)
      have heeq := ffillList_stay (none : Option Bool)
        (rows3.map (fun r => r.epolated)) j
        (by rw [List.length_map]; exact hb1)
        (by rw [List.getElem_map]; exact hec)
      simp only [List.get_eq_getElem] at hseq hieq heeq
      rcases hdif with hd | hd | hd
      · apply hd
        rw [hout1, hout0]
        exact hseq
      · apply hd
        rw [hout1, hout0]
        exact hieq
      · apply hd
        rw [hout1, hout0]
        exact heeq
    have hxmem : rows3[j + 1] ∈ rows3 := List.getElem_mem hb1
    obtain ⟨p, hp, y, hy, hxy⟩ := groupedResample_mem _ _ _ _ hgr _ hxmem
    have hysome : y.summary.isSome ∨ y.ipolated.isSome ∨ y.epolated.isSome := by
      rw [hxy] at hsome
      exact hsome
    obtain ⟨w, hw, hwdt, hwsum, hwip, hwep⟩ := resampleRows_mem_anchor _ _ _ hy hysome
    obtain ⟨hwRows, hwpp⟩ := List.mem_filter.mp hw
    obtain ⟨rec, hrecs, rfl⟩ := List.mem_map.mp hwRows
    have hrecw := (List.perm_insertionSort wkeyLe _).mem_iff.mp hrecs
    obtain ⟨hrwdb, hrfil⟩ := List.mem_filter.mp hrecw
    have hwp : (toWRow true false rec).pp_id = some p := by
      simpa using hwpp
    have hrp : some rec.pp_id = some p := by
      rw [← hwp]
      rfl
    have hxpp : (rows3[j + 1]).pp_id = some p := by
      rw [hxy]
    have hxdt : (rows3[j + 1]).dt = y.dt := by
      rw [hxy]
    have hrd : rec.dt = y.dt := by
      rw [← hwdt]
      rfl
    refine ⟨rec, hrwdb, hrfil, ?_, ?_⟩
    · rw [hout1]
      show some rec.pp_id = (rows3[j + 1]).pp_id
      rw [hxpp]
      exact hrp
    · rw [hout1]
      show rec.dt = (rows3[j + 1]).dt
      rw [hxdt]
      exact hrd

/-- Witness for the amended forward-fill theorem on the two-plant
fixture. -/
theorem c7_ffill_changes_only_at_plant_anchors_witness :
    ∃ rec ∈ wdbC7,
      weatherWhere none (some (freq_floor 0 S_FREQUENCY))
        (some (freq_ceil 120 S_FREQUENCY)) (some 0) none rec = true
      ∧ some rec.pp_id = (c7out.get ⟨12, by decide⟩).pp_id
      ∧ rec.dt = (c7out.get ⟨12, by decide⟩).dt :=
  c7_ffill_changes_only_at_plant_anchors wdbC7 0 120 0 false c7out rfl
    11 (by decide) (by decide) (Or.inl (by decide))
